import Mathlib

/-!
Shallow embedding of the R8 CHIP-8 interpreter and assembler, translated
from the Rust sources (src/src/emulator/*, src/r8-core/src/memory.rs,
src/r8-assembly/src/*).  Machine integers are modelled as `Nat` with
explicit wrap-arounds (`% 256`, `% 65536`, ...) where the Rust code relies
on fixed-width behaviour; bit shifts and masks by powers of two are written
with `/`, `%` and `*` (`w >> 8 = w / 256`, `w & 0xF = w % 16`, ...).
Fallible Rust functions returning `Result` become `Except`.
-/

namespace R8

/-- EmulatorError from src/src/emulator/error.rs (the io cause of LoadError is dropped). -/
inductive EmulatorError where
  | LoadError
  | StackOverFlow
  | StackUnderFlow
  | InvalidAddress (v : Nat)
  | OutOfBounds (v : Nat)
  | InvalidRegister (v : Nat)
deriving DecidableEq

/-- Address::try_new: fails when the value exceeds 0xFFF. -/
def Address.tryNew (v : Nat) : Except EmulatorError Nat :=
  if v > 0xFFF then .error (.InvalidAddress v) else .ok v

/-- Address::new masks to 12 bits (`address & 0xFFF`, i.e. `% 0x1000`). -/
def Address.new (v : Nat) : Nat := v % 0x1000

/-- Address::add_assign: `Self::try_new(self.0 + other)` (u16 addition cannot
overflow here: the stored address is at most 0xFFF and the operand at most 0xFFFF). -/
def Address.addAssign (a other : Nat) : Except EmulatorError Nat :=
  Address.tryNew (a + other)

/-- V registers as a total map from index to byte value (the source array has 16 cells). -/
def VRegs : Type := Nat → Nat

/-- Write one V register (array store `self.registers[index] = v`). -/
def VRegs.setR (r : VRegs) (x v : Nat) : VRegs :=
  fun j => if j = x then v else r j

/-- Slice `V![0 => x]`, i.e. `registers[RegisterIndex::ZERO..=x]` via the
Index impl for RangeInclusive<RegisterIndex> in src/src/emulator/register.rs:
`from_raw_parts(ptr.add(start), end - start)` — the produced slice has
length `end - start` = `x`, covering registers 0, 1, ..., x-1. -/
def VRegs.rangeFromZero (r : VRegs) (x : Nat) : List Nat :=
  (List.range x).map r

/-- Overwrite registers 0..len-1 with the bytes of `data`
(`copy_from_slice` into the slice `V![0 => x]`). -/
def VRegs.writeFromZero (r : VRegs) (data : List Nat) : VRegs :=
  fun j => if h : j < data.length then data.get ⟨j, h⟩ else r j

/-- Memory as a total map from address to byte; only indices below 0x1000 are ever used. -/
def Mem : Type := Nat → Nat

/-- Byte-for-byte copy of `data` into memory starting at `start`
(models `ptr::copy_nonoverlapping(data, ram+start, data.len())`). -/
def writeBytes (m : Mem) (start : Nat) (data : List Nat) : Mem :=
  match data with
  | [] => m
  | b :: rest => writeBytes (fun a => if a = start then b else m a) (start + 1) rest

/-- Models `ram[start..stop].fill(0)`. -/
def fillZero (m : Mem) (start stop : Nat) : Mem :=
  fun a => if start ≤ a ∧ a < stop then 0 else m a

/-- Memory::read_range from src/r8-core/src/memory.rs: copies `data` INTO memory
at `start_address`, after the bound check `data.len() + start_address.0 as usize
> 0xFFF` (usize arithmetic, exact).  The error payload is
`data.len() as u16 + start_address.0`: the length is truncated to u16 and the
u16 addition wraps (release-mode semantics; a debug build would panic on
overflow instead), hence the `% 65536` on both. `start` stands for the u16
`start_address.0`, already below 2^16. -/
def Memory.readRange (m : Mem) (start : Nat) (data : List Nat) : Except EmulatorError Mem :=
  if data.length + start > 0xFFF then
    .error (.OutOfBounds ((data.length % 65536 + start) % 65536))
  else
    .ok (writeBytes m start data)

/-- Memory::write_range from src/r8-core/src/memory.rs: copies `len` bytes OUT of
memory at `start_address` into the caller's buffer, after the bound check
`start_address.0 as usize + data.len() > 0xFFF` (usize arithmetic, exact).
The buffer is returned as a list.  As in read_range, the error payload
`data.len() as u16 + start_address.0` truncates the length to u16 and wraps
the u16 addition. -/
def Memory.writeRange (m : Mem) (start len : Nat) : Except EmulatorError (List Nat) :=
  if start + len > 0xFFF then
    .error (.OutOfBounds ((len % 65536 + start) % 65536))
  else
    .ok ((List.range len).map (fun j => m (start + j)))

/-- FONT_SET literal from src/r8-core/src/memory.rs (identical in src/src/emulator/memory.rs). -/
def FONT_SET : List Nat :=
  [0xF0, 0x90, 0x90, 0x90, 0xF0, 0x20, 0x60, 0x20, 0x20, 0x70, 0xF0, 0x10, 0xF0, 0x80, 0xF0, 0xF0,
   0x10, 0xF0, 0x10, 0xF0, 0x90, 0x90, 0xF0, 0x10, 0x10, 0xF0, 0x80, 0xF0, 0x10, 0xF0, 0xF0, 0x80,
   0xF0, 0x90, 0xF0, 0xF0, 0x10, 0x20, 0x40, 0x40, 0xF0, 0x90, 0xF0, 0x90, 0xF0, 0xF0, 0x90, 0xF0,
   0x10, 0xF0, 0xF0, 0x90, 0xF0, 0x90, 0x90, 0xE0, 0x90, 0xE0, 0x90, 0xE0, 0xF0, 0x80, 0x80, 0x80,
   0xF0, 0xE0, 0x90, 0x90, 0x90, 0xE0, 0xF0, 0x80, 0xF0, 0x80, 0xF0, 0xF0, 0x80, 0xF0, 0x80, 0x80]

/-- Memory::load_rom from src/r8-core/src/memory.rs for a reader that successfully
delivers the byte list `rom`: restore the font, clear `[0x50, 0x200)`, read ROM
bytes into `[0x200, 0x1000)` (the chunked read loop copies at most
0x1000 - 0x200 = 0xE00 bytes and stops at end-of-reader), zero-fill the tail. -/
def Memory.loadRom (m : Mem) (rom : List Nat) : Except EmulatorError Mem :=
  match Memory.readRange m 0 FONT_SET with
  | .error e => .error e
  | .ok m1 =>
    let m2 := fillZero m1 (0 + FONT_SET.length) 0x200
    let taken := rom.take (0x1000 - 0x200)
    let m3 := writeBytes m2 0x200 taken
    let m4 := fillZero m3 (0x200 + taken.length) 0x1000
    .ok m4

/-- Display from src/src/emulator/display.rs (identical logic to
src/r8-emulator/src/display.rs): a 64x32 grid `vram[x][y]` plus the `updated` flag. -/
structure Display where
  vram : Nat → Nat → Bool
  updated : Bool

/-- Display::clear. -/
def Display.clear (_d : Display) : Display :=
  { vram := fun _ _ => false, updated := true }

/-- One iteration of the `for bit_index in 0..u8::BITS` loop in Display::set.
The column is `(x + bit_index) as usize % WIDTH` where `x + bit_index` is u8
addition (wrapping, hence the `% 256`); the sprite bit is
`(value & (0x80 >> bit_index)) != 0`, i.e. bit 7-i of `value`; the collision
accumulator follows the source condition
`!(self.vram[x][y] ^ pixel) && !pixel` checked before the XOR store. -/
def blitStep (x y0 v : Nat) (acc : (Nat → Nat → Bool) × Nat) (i : Nat) :
    (Nat → Nat → Bool) × Nat :=
  let xu := (x + i) % 256 % 64
  let pixel : Bool := v / 2 ^ (7 - i) % 2 == 1
  let old := acc.1 xu y0
  let res := if (!(old ^^ pixel)) && (!pixel) then 1 else acc.2
  (fun a b => if a = xu ∧ b = y0 then old ^^ pixel else acc.1 a b, res)

/-- Display::set: blit one sprite byte at (x, y); `y %= HEIGHT` first, then the
8-bit loop; returns the updated display and the collision result byte. -/
def Display.set (d : Display) (x y v : Nat) : Display × Nat :=
  let y0 := y % 32
  let r := (List.range 8).foldl (blitStep x y0 v) (d.vram, 0)
  ({ vram := r.1, updated := true }, r.2)

/-- Stack::push (capacity STACK_SIZE = 16); the new element sits at the head. -/
def Stack.push (s : List Nat) (a : Nat) : Except EmulatorError (List Nat) :=
  if s.length ≥ 16 then .error .StackOverFlow else .ok (a :: s)

/-- Stack::pop. -/
def Stack.pop (s : List Nat) : Except EmulatorError (Nat × List Nat) :=
  match s with
  | [] => .error .StackUnderFlow
  | a :: t => .ok (a, t)

/-- Timer::decrement: subtract one if positive, otherwise no-op. -/
def Timer.decrement (t : Nat) : Nat :=
  if 0 < t then t - 1 else t

/-- KeyBoard::is_set on the 16-bit mask: `(mask >> key) & 1 == 1`. -/
def KeyBoard.isSet (kb k : Nat) : Bool :=
  kb / 2 ^ k % 2 == 1

/-- RandGen::next: 128-bit wrapping LCG followed by `% u128::MAX`, returning
bits 56..63 of the new state (`(state >> 56) as u8`). -/
def RandGen.next (s : Nat) : Nat × Nat :=
  let s1 := (6364136223846793005 * s + 1442695040888963407) % 2 ^ 128 % (2 ^ 128 - 1)
  (s1, s1 / 2 ^ 56 % 256)

/-- Interpreter state tag. -/
inductive EmuState where
  | New
  | Running
  | WaitingKey (x : Nat)
deriving DecidableEq

/-- Decoded opcode, one arm per CHIP-8 instruction (src/src/emulator/opcode.rs). -/
inductive Opcode where
  | Cls
  | Ret
  | Sys (address : Nat)
  | Jp (address : Nat)
  | Call (address : Nat)
  | SeByte (x byte : Nat)
  | SneByte (x byte : Nat)
  | SeRegister (x y : Nat)
  | LdByte (x byte : Nat)
  | AddByte (x byte : Nat)
  | LdRegister (x y : Nat)
  | Or (x y : Nat)
  | And (x y : Nat)
  | Xor (x y : Nat)
  | AddRegister (x y : Nat)
  | Sub (x y : Nat)
  | Shr (x : Nat)
  | Subn (x y : Nat)
  | Shl (x : Nat)
  | SneRegister (x y : Nat)
  | LdI (address : Nat)
  | JpV0 (address : Nat)
  | Rnd (x byte : Nat)
  | Drw (x y n : Nat)
  | Skp (x : Nat)
  | Sknp (x : Nat)
  | LdVxDT (x : Nat)
  | LdVxK (x : Nat)
  | LdDTVx (x : Nat)
  | LdSTVx (x : Nat)
  | AddIVx (x : Nat)
  | LdFVx (x : Nat)
  | LdBVx (x : Nat)
  | LdIVx (x : Nat)
  | LdVxI (x : Nat)
  | Invalid (w : Nat)
deriving DecidableEq

/-- Nibble accessors of a 16-bit word: `nibble!(1) = (w >> 8) & 0xF`,
`nibble!(2) = (w >> 4) & 0xF`, `nibble!(3) = w & 0xF`. -/
def nib1 (w : Nat) : Nat := w / 256 % 16
def nib2 (w : Nat) : Nat := w / 16 % 16
def nib3 (w : Nat) : Nat := w % 16

/-- Inner match of the 0x8000 range (`match nibble!(3)` in the source). -/
def Opcode.decodeGroup8 (w : Nat) : Opcode :=
  if w % 16 = 0x0 then .LdRegister (w / 256 % 16) (w / 16 % 16)
  else if w % 16 = 0x1 then .Or (w / 256 % 16) (w / 16 % 16)
  else if w % 16 = 0x2 then .And (w / 256 % 16) (w / 16 % 16)
  else if w % 16 = 0x3 then .Xor (w / 256 % 16) (w / 16 % 16)
  else if w % 16 = 0x4 then .AddRegister (w / 256 % 16) (w / 16 % 16)
  else if w % 16 = 0x5 then .Sub (w / 256 % 16) (w / 16 % 16)
  else if w % 16 = 0x6 then .Shr (w / 256 % 16)
  else if w % 16 = 0x7 then .Subn (w / 256 % 16) (w / 16 % 16)
  else if w % 16 = 0xE then .Shl (w / 256 % 16)
  else .Invalid w

/-- Inner match of the 0xE000 range (`match (nibble!(2), nibble!(3))`). -/
def Opcode.decodeGroupE (w : Nat) : Opcode :=
  if w / 16 % 16 = 0x9 ∧ w % 16 = 0xE then .Skp (w / 256 % 16)
  else if w / 16 % 16 = 0xA ∧ w % 16 = 0x1 then .Sknp (w / 256 % 16)
  else .Invalid w

/-- Inner match of the 0xF000 range (`match (nibble!(2), nibble!(3))`). -/
def Opcode.decodeGroupF (w : Nat) : Opcode :=
  if w / 16 % 16 = 0x0 ∧ w % 16 = 0x7 then .LdVxDT (w / 256 % 16)
  else if w / 16 % 16 = 0x0 ∧ w % 16 = 0xA then .LdVxK (w / 256 % 16)
  else if w / 16 % 16 = 0x1 ∧ w % 16 = 0x5 then .LdDTVx (w / 256 % 16)
  else if w / 16 % 16 = 0x1 ∧ w % 16 = 0x8 then .LdSTVx (w / 256 % 16)
  else if w / 16 % 16 = 0x1 ∧ w % 16 = 0xE then .AddIVx (w / 256 % 16)
  else if w / 16 % 16 = 0x2 ∧ w % 16 = 0x9 then .LdFVx (w / 256 % 16)
  else if w / 16 % 16 = 0x3 ∧ w % 16 = 0x3 then .LdBVx (w / 256 % 16)
  else if w / 16 % 16 = 0x5 ∧ w % 16 = 0x5 then .LdIVx (w / 256 % 16)
  else if w / 16 % 16 = 0x6 ∧ w % 16 = 0x5 then .LdVxI (w / 256 % 16)
  else .Invalid w

/-- TryFrom<u16> for Opcode.  The Rust decoder returns `Result` but the
`RegisterIndex::try_new` calls receive masked nibbles (always at most 0xF) and
can never fail, so the embedding is total.  The match mirrors the source's
range patterns top to bottom, with the source's inner matches for the 0x8000,
0xE000 and 0xF000 ranges split into the group decoders above;
`address = w & 0x0FFF = w % 4096`, `kk = w & 0x00FF = w % 256`,
`x = (w >> 8) & 0xF = w / 256 % 16`, `y = (w >> 4) & 0xF = w / 16 % 16`,
`n = w & 0xF = w % 16`. -/
def Opcode.decode (w : Nat) : Opcode :=
  if w = 0x00E0 then .Cls
  else if w = 0x00EE then .Ret
  else if w ≤ 0x0FFF then .Sys (w % 4096)
  else if w ≤ 0x1FFF then .Jp (w % 4096)
  else if w ≤ 0x2FFF then .Call (w % 4096)
  else if w ≤ 0x3FFF then .SeByte (w / 256 % 16) (w % 256)
  else if w ≤ 0x4FFF then .SneByte (w / 256 % 16) (w % 256)
  else if w ≤ 0x5FFF then
    if w % 16 = 0x0 then .SeRegister (w / 256 % 16) (w / 16 % 16) else .Invalid w
  else if w ≤ 0x6FFF then .LdByte (w / 256 % 16) (w % 256)
  else if w ≤ 0x7FFF then .AddByte (w / 256 % 16) (w % 256)
  else if w ≤ 0x8FFF then Opcode.decodeGroup8 w
  else if w ≤ 0x9FFF then
    if w % 16 = 0x0 then .SneRegister (w / 256 % 16) (w / 16 % 16) else .Invalid w
  else if w ≤ 0xAFFF then .LdI (w % 4096)
  else if w ≤ 0xBFFF then .JpV0 (w % 4096)
  else if w ≤ 0xCFFF then .Rnd (w / 256 % 16) (w % 256)
  else if w ≤ 0xDFFF then .Drw (w / 256 % 16) (w / 16 % 16) (w % 16)
  else if w ≤ 0xEFFF then Opcode.decodeGroupE w
  else if w ≤ 0xFFFF then Opcode.decodeGroupF w
  else .Invalid w

/-- Emulator state (src/src/emulator/emulator.rs).  The random generator is its
128-bit LCG state; the keyboard is its 16-bit mask. -/
structure Emulator where
  pc : Nat
  i : Nat
  registers : VRegs
  soundTimer : Nat
  delayTimer : Nat
  stack : List Nat
  memory : Mem
  display : Display
  keyboard : Nat
  rand : Nat
  state : EmuState

/-- Emulator::new (the wall-clock random seed is a parameter). -/
def Emulator.mk0 (seed : Nat) : Emulator :=
  { pc := 0x200, i := Address.new 0, registers := fun _ => 0,
    soundTimer := 0, delayTimer := 0, stack := [],
    memory := fun _ => 0, display := { vram := fun _ _ => false, updated := false },
    keyboard := 0, rand := seed, state := .New }

/-- Emulator::fetch_opcode: `memory.write_range(pc, &mut [0, 0])` followed by
`u16::from_be_bytes`. -/
def Emulator.fetchOpcode (e : Emulator) : Except EmulatorError Opcode := do
  let bytes ← Memory.writeRange e.memory e.pc 2
  .ok (Opcode.decode (bytes.getD 0 0 * 256 + bytes.getD 1 0))

/-- BCD helper from src/src/emulator/emulator.rs. -/
def bcd (v : Nat) : List Nat :=
  [v / 100, v % 100 / 10, v % 10]

/-- One row of the Drw loop: index memory at `I + row` (checked via
`Address::try_new`, the `try_into()?`), blit at column rx and row
`ry % 32 + row`, and or the collision bit into the accumulator. -/
def drwRow (m : Mem) (i rx ry : Nat) (acc : Display × Nat) (row : Nat) :
    Except EmulatorError (Display × Nat) := do
  let a ← Address.tryNew (i + row)
  let p := Display.set acc.1 rx (ry % 32 + row) (m a)
  .ok (p.1, acc.2 ||| p.2)

/-- Emulator::execute_opcode.  The program counter is advanced by 2 (checked)
before the instruction dispatch, exactly as in the source.  On an error the
partially mutated state of the Rust `&mut self` is discarded; no claim observes
state after a failing tick. -/
def Emulator.executeOpcode (e0 : Emulator) (op : Opcode) : Except EmulatorError Emulator := do
  let pc1 ← Address.addAssign e0.pc 2
  let e := { e0 with pc := pc1 }
  match op with
  | .Cls => .ok { e with display := e.display.clear }
  | .Ret => do
    let (a, s) ← Stack.pop e.stack
    .ok { e with pc := a, stack := s }
  | .Jp address => .ok { e with pc := address }
  | .Sys address => do
    let s ← Stack.push e.stack e.pc
    .ok { e with stack := s, pc := address }
  | .Call address => do
    let s ← Stack.push e.stack e.pc
    .ok { e with stack := s, pc := address }
  | .SeByte x byte =>
    if e.registers x = byte then do
      let pc2 ← Address.addAssign e.pc 2
      .ok { e with pc := pc2 }
    else .ok e
  | .SneByte x byte =>
    if e.registers x ≠ byte then do
      let pc2 ← Address.addAssign e.pc 2
      .ok { e with pc := pc2 }
    else .ok e
  | .SeRegister x y =>
    if e.registers x = e.registers y then do
      let pc2 ← Address.addAssign e.pc 2
      .ok { e with pc := pc2 }
    else .ok e
  | .LdByte x byte => .ok { e with registers := e.registers.setR x byte }
  | .AddByte x byte =>
    .ok { e with registers := e.registers.setR x ((e.registers x + byte) % 256) }
  | .LdRegister x y => .ok { e with registers := e.registers.setR x (e.registers y) }
  | .Or x y =>
    .ok { e with registers := e.registers.setR x (e.registers x ||| e.registers y) }
  | .And x y =>
    .ok { e with registers := e.registers.setR x (e.registers x &&& e.registers y) }
  | .Xor x y =>
    .ok { e with registers := e.registers.setR x (e.registers x ^^^ e.registers y) }
  | .AddRegister x y =>
    -- let result = V![x] as u16 + V![y] as u16 (no u16 overflow for byte inputs);
    -- V![x] = (result & 0xFF) as u8;  V![FLAGS] = if result & 0xFF00 != 0 { 1 } else { 0 }
    let result := e.registers x + e.registers y
    let r1 := e.registers.setR x (result % 256)
    .ok { e with registers := r1.setR 0xF (if result / 256 % 256 ≠ 0 then 1 else 0) }
  | .Sub x y =>
    -- flag first, then V![x] = V![x].wrapping_sub(V![y])
    let r1 := e.registers.setR 0xF (if e.registers x > e.registers y then 1 else 0)
    .ok { e with registers := r1.setR x ((r1 x + 256 - r1 y) % 256) }
  | .Shr x =>
    let r1 := e.registers.setR 0xF (e.registers x % 2)
    .ok { e with registers := r1.setR x (r1 x / 2) }
  | .Subn x y =>
    let r1 := e.registers.setR 0xF (if e.registers y > e.registers x then 1 else 0)
    .ok { e with registers := r1.setR x ((r1 y + 256 - r1 x) % 256) }
  | .Shl x =>
    let r1 := e.registers.setR 0xF (e.registers x / 128 % 2)
    .ok { e with registers := r1.setR x (r1 x * 2 % 256) }
  | .SneRegister x y =>
    if e.registers x ≠ e.registers y then do
      let pc2 ← Address.addAssign e.pc 2
      .ok { e with pc := pc2 }
    else .ok e
  | .LdI address => .ok { e with i := address }
  | .JpV0 address => do
    -- self.pc.add_assign(address.inner() + V![0] as u16)? : an increment of the
    -- already-advanced program counter, not an absolute assignment
    let pc2 ← Address.addAssign e.pc (address + e.registers 0)
    .ok { e with pc := pc2 }
  | .Rnd x byte =>
    let p := RandGen.next e.rand
    .ok { e with rand := p.1, registers := e.registers.setR x (p.2 &&& byte) }
  | .Drw x y n => do
    let regs0 := e.registers.setR 0xF 0
    let rx := regs0 x
    let ry := regs0 y
    let p ← (List.range n).foldlM (drwRow e.memory e.i rx ry) (e.display, 0)
    .ok { e with display := p.1, registers := regs0.setR 0xF p.2 }
  | .Skp x =>
    if KeyBoard.isSet e.keyboard (e.registers x % 16) then do
      let pc2 ← Address.addAssign e.pc 2
      .ok { e with pc := pc2 }
    else .ok e
  | .Sknp x =>
    if !KeyBoard.isSet e.keyboard (e.registers x % 16) then do
      let pc2 ← Address.addAssign e.pc 2
      .ok { e with pc := pc2 }
    else .ok e
  | .LdVxDT x => .ok { e with registers := e.registers.setR x e.delayTimer }
  | .LdVxK x => .ok { e with state := .WaitingKey x }
  | .LdDTVx x => .ok { e with delayTimer := e.registers x }
  | .LdSTVx x => .ok { e with soundTimer := e.registers x }
  | .AddIVx x => do
    let i2 ← Address.addAssign e.i (e.registers x)
    .ok { e with i := i2 }
  | .LdFVx x => .ok { e with i := Address.new (e.registers x % 16 * 5) }
  | .LdBVx x => do
    let m2 ← Memory.readRange e.memory e.i (bcd (e.registers x))
    .ok { e with memory := m2 }
  | .LdIVx x => do
    let m2 ← Memory.readRange e.memory e.i (e.registers.rangeFromZero x)
    .ok { e with memory := m2 }
  | .LdVxI x => do
    let bytes ← Memory.writeRange e.memory e.i (e.registers.rangeFromZero x).length
    .ok { e with registers := e.registers.writeFromZero bytes }
  | .Invalid _ => .ok e

/-- Timer decrements, fetch, decode, execute: the part of Emulator::tick that
runs once the state has been resolved to Running. -/
def Emulator.tickRun (e0 : Emulator) : Except EmulatorError Emulator := do
  let e := { e0 with soundTimer := Timer.decrement e0.soundTimer,
                     delayTimer := Timer.decrement e0.delayTimer }
  let op ← e.fetchOpcode
  e.executeOpcode op

/-- Emulator::tick.  In WaitingKey the keys 0x0..=0xF are scanned in ascending
order (`(0..=0xF).find`); if none is pressed the tick does nothing. -/
def Emulator.tick (e : Emulator) : Except EmulatorError Emulator :=
  match e.state with
  | .New => .ok e
  | .WaitingKey x =>
    match (List.range 16).find? (fun k => KeyBoard.isSet e.keyboard k) with
    | none => .ok e
    | some k =>
      Emulator.tickRun { e with registers := e.registers.setR x k, state := .Running }
  | .Running => Emulator.tickRun e

/-- Emulator::load_rom: reset registers and devices, load the ROM through
Memory::load_rom, then mark the state Running. -/
def Emulator.loadRom (e0 : Emulator) (rom : List Nat) : Except EmulatorError Emulator := do
  let e := { e0 with pc := 0x200, i := Address.new 0, delayTimer := 0, soundTimer := 0,
                     registers := fun _ => 0, stack := [],
                     display := e0.display.clear }
  let m ← Memory.loadRom e.memory rom
  .ok { e with memory := m, state := .Running }

/-- Canonical encoding of each non-Invalid opcode, following the instruction
encoding tables realised by the assembler templates in
src/r8-assembly/src/lib.rs (`op_sxyn`/`op_snnn`/`op_sxkk`); in particular
`SHR Vx` emits `0x8X16` and `SHL Vx` emits `0x8X0E`.  Nibble fields are
disjoint, so the source's shift-and-or is written as sums. -/
def Opcode.encode : Opcode → Nat
  | .Cls => 0x00E0
  | .Ret => 0x00EE
  | .Sys a => a
  | .Jp a => 0x1000 + a
  | .Call a => 0x2000 + a
  | .SeByte x kk => 0x3000 + x * 256 + kk
  | .SneByte x kk => 0x4000 + x * 256 + kk
  | .SeRegister x y => 0x5000 + x * 256 + y * 16
  | .LdByte x kk => 0x6000 + x * 256 + kk
  | .AddByte x kk => 0x7000 + x * 256 + kk
  | .LdRegister x y => 0x8000 + x * 256 + y * 16
  | .Or x y => 0x8000 + x * 256 + y * 16 + 0x1
  | .And x y => 0x8000 + x * 256 + y * 16 + 0x2
  | .Xor x y => 0x8000 + x * 256 + y * 16 + 0x3
  | .AddRegister x y => 0x8000 + x * 256 + y * 16 + 0x4
  | .Sub x y => 0x8000 + x * 256 + y * 16 + 0x5
  | .Shr x => 0x8000 + x * 256 + 0x16
  | .Subn x y => 0x8000 + x * 256 + y * 16 + 0x7
  | .Shl x => 0x8000 + x * 256 + 0x0E
  | .SneRegister x y => 0x9000 + x * 256 + y * 16
  | .LdI a => 0xA000 + a
  | .JpV0 a => 0xB000 + a
  | .Rnd x kk => 0xC000 + x * 256 + kk
  | .Drw x y n => 0xD000 + x * 256 + y * 16 + n
  | .Skp x => 0xE000 + x * 256 + 0x9E
  | .Sknp x => 0xE000 + x * 256 + 0xA1
  | .LdVxDT x => 0xF000 + x * 256 + 0x07
  | .LdVxK x => 0xF000 + x * 256 + 0x0A
  | .LdDTVx x => 0xF000 + x * 256 + 0x15
  | .LdSTVx x => 0xF000 + x * 256 + 0x18
  | .AddIVx x => 0xF000 + x * 256 + 0x1E
  | .LdFVx x => 0xF000 + x * 256 + 0x29
  | .LdBVx x => 0xF000 + x * 256 + 0x33
  | .LdIVx x => 0xF000 + x * 256 + 0x55
  | .LdVxI x => 0xF000 + x * 256 + 0x65
  | .Invalid w => w

/-! Assembler (src/r8-assembly/src): tokenizer, pass 1 (`cast_line`), pass 2
(`MemorySlices::write`).  Source text is a list of characters; the tokenizer
works on ASCII exactly as the Rust byte-level lexer does. -/

/-- Tokens (r8-assembly tokenizer.rs).  Identifier and label names keep their
characters. -/
inductive AToken where
  | label (s : List Char)
  | ident (s : List Char)
  | reg (v : Nat)
  | num (v : Nat)
  | comma
  | lineBreak
  | eof
deriving DecidableEq

/-- Assembler errors (r8-assembly error.rs); the io variant and the
ParseIntError payload are dropped, InvalidLine keeps the owned token list. -/
inductive AsmError where
  | duplicateLabel (s : List Char) (line : Nat)
  | undefinedLabel (s : List Char) (line : Nat)
  | invalidAddress (v : Nat) (line : Nat)
  | invalidNumber (s : List Char) (line : Nat)
  | invalidRegister (v : Nat) (line : Nat)
  | invalidByte (v : Nat) (line : Nat)
  | invalidNibble (v : Nat) (line : Nat)
  | invalidToken (s : List Char) (line : Nat)
  | invalidLine (tokens : List AToken) (line : Nat)
deriving DecidableEq

/-- Token separators used by `next_space`: space, tab, newline, carriage return, comma. -/
def isSep (c : Char) : Bool :=
  c == ' ' || c == '\t' || c == '\n' || c == '\r' || c == ','

/-- Hexadecimal digit test (`b'0'..=b'9' | b'a'..=b'f' | b'A'..=b'F'`). -/
def isHexChar (c : Char) : Bool :=
  c.isDigit || ('a' ≤ c && c ≤ 'f') || ('A' ≤ c && c ≤ 'F')

/-- Value of one digit (valid for the radix assumed). -/
def digitVal (c : Char) : Nat :=
  if c.isDigit then c.toNat - '0'.toNat
  else if 'a' ≤ c ∧ c ≤ 'f' then c.toNat - 'a'.toNat + 10
  else c.toNat - 'A'.toNat + 10

/-- Digit validity for a radix (10 or 16 are the only radices used). -/
def isRadixDigit (radix : Nat) (c : Char) : Bool :=
  if radix = 16 then isHexChar c else c.isDigit

/-- Accumulate the digits of `s`; none if some character is not a digit. -/
def parseDigits (radix : Nat) (s : List Char) (acc : Nat) : Option Nat :=
  match s with
  | [] => some acc
  | c :: rest =>
    if isRadixDigit radix c then parseDigits radix rest (acc * radix + digitVal c)
    else none

/-- Model of `uN::from_str_radix`: optional leading plus sign, at least one
digit, all digits valid, value within the integer type's bound
(`bound` = 255 for u8, 65535 for u16); anything else is a parse error. -/
def parseUInt (radix bound : Nat) (s : List Char) : Option Nat :=
  let s1 := match s with
    | '+' :: t => t
    | t => t
  match s1 with
  | [] => none
  | _ =>
    match parseDigits radix s1 0 with
    | none => none
    | some v => if v ≤ bound then some v else none

/-- Head of the remaining input is a hexadecimal digit (the second byte of the
`[b'V', hex, ..]` and `[b'#', hex, ..]` patterns). -/
def headHex : List Char → Bool
  | d :: _ => isHexChar d
  | [] => false

/-- Tokenizer::next_token.  Returns the token or lexical error, the updated
line counter, and the remaining input.  The skip loop (whitespace, comments)
consumes at least one character per iteration, so `fuel = src.length + 1`
(supplied by the callers) never runs out. -/
def nextToken (fuel line : Nat) (src : List Char) : (Except AsmError AToken) × Nat × List Char :=
  match fuel with
  | 0 => (.ok .eof, line, src)
  | fuel + 1 =>
    match src with
    | [] => (.ok .eof, line, [])
    | c :: rest =>
      if c = ' ' ∨ c = '\t' ∨ c = '\r' then nextToken fuel line rest
      else if c = '\n' then (.ok .lineBreak, line + 1, rest)
      else if c = 'V' ∧ headHex rest then
        -- register: consume the V, lexeme runs to the next separator
        let lexeme := rest.takeWhile (fun ch => !isSep ch)
        let rest2 := rest.dropWhile (fun ch => !isSep ch)
        match parseUInt 16 255 lexeme with
        | some r =>
          if r > 0xF then (.error (.invalidRegister r line), line, rest2)
          else (.ok (.reg r), line, rest2)
        | none => (.error (.invalidNumber lexeme line), line, rest2)
      else if c = '#' ∧ headHex rest then
        let lexeme := rest.takeWhile (fun ch => !isSep ch)
        let rest2 := rest.dropWhile (fun ch => !isSep ch)
        match parseUInt 16 65535 lexeme with
        | some n => (.ok (.num n), line, rest2)
        | none => (.error (.invalidNumber lexeme line), line, rest2)
      else if c.isDigit then
        let lexeme := src.takeWhile (fun ch => !isSep ch)
        let rest2 := src.dropWhile (fun ch => !isSep ch)
        match parseUInt 10 65535 lexeme with
        | some n => (.ok (.num n), line, rest2)
        | none => (.error (.invalidNumber lexeme line), line, rest2)
      else if c = ',' then (.ok .comma, line, rest)
      else if c.isAlpha ∨ c = '[' ∨ c = ']' then
        let lexeme := src.takeWhile (fun ch => !isSep ch)
        let rest2 := src.dropWhile (fun ch => !isSep ch)
        if lexeme.getLast? = some ':' then (.ok (.label lexeme.dropLast), line, rest2)
        else (.ok (.ident lexeme), line, rest2)
      else if c = ';' then
        -- comment: skip to the next newline (kept in the input)
        nextToken fuel line (src.dropWhile (fun ch => ch ≠ '\n'))
      else
        let lexeme := src.takeWhile (fun ch => !isSep ch)
        let rest2 := src.dropWhile (fun ch => !isSep ch)
        (.error (.invalidToken lexeme line), line, rest2)

/-- Tokenizer::get_line loop body: collect tokens until LineBreak or Eof; a
lexical error abandons the tokens collected so far, as in the source.  A
`[eof]` singleton line (with the current line number) marks end of input when
nothing was collected.  Each kept token consumes input, so the callers' fuel
`src.length + 1` suffices. -/
def getLineAux (fuel line0 : Nat) (acc : List AToken) (line : Nat) (src : List Char) :
    (Except AsmError (List AToken × Nat)) × Nat × List Char :=
  match fuel with
  | 0 => (.ok (acc.reverse, line0), line, src)
  | fuel + 1 =>
    match nextToken (src.length + 1) line src with
    | (.error e, line', rest) => (.error e, line', rest)
    | (.ok .lineBreak, line', rest) => (.ok (acc.reverse, line0), line', rest)
    | (.ok .eof, line', rest) =>
      if acc.isEmpty then (.ok ([.eof], line'), line', rest)
      else (.ok (acc.reverse, line0), line', rest)
    | (.ok t, line', rest) => getLineAux fuel line0 (t :: acc) line' rest

/-- Tokenizer::get_line. -/
def getLine (line : Nat) (src : List Char) :
    (Except AsmError (List AToken × Nat)) × Nat × List Char :=
  getLineAux (src.length + 1) line [] line src

/-- Iterator for Tokenizer: collect lines, stopping at the `[eof]` marker;
errors are yielded and iteration continues from the advanced input.  Each
yielded line consumes at least one character, so fuel `src.length + 1`
suffices. -/
def tokenizeAux (fuel line : Nat) (src : List Char)
    (acc : List (Except AsmError (List AToken × Nat))) :
    List (Except AsmError (List AToken × Nat)) :=
  match fuel with
  | 0 => acc.reverse
  | fuel + 1 =>
    match getLine line src with
    | (.ok ([.eof], _), _, _) => acc.reverse
    | (r, line', rest) => tokenizeAux fuel line' rest (r :: acc)

/-- Tokenized lines of a source text, in source order. -/
def tokenize (src : List Char) : List (Except AsmError (List AToken × Nat)) :=
  tokenizeAux (src.length + 1) 1 src []

/-- Label table (HashMap<&str, u16> in the source; keys are inserted only when
absent, so an association list is an exact model). -/
def LabelMap : Type := List (List Char × Nat)

def LabelMap.containsKey (m : LabelMap) (k : List Char) : Bool :=
  m.any (fun p => p.1 == k)

def LabelMap.getVal (m : LabelMap) (k : List Char) : Option Nat :=
  match m.find? (fun p => p.1 == k) with
  | some p => some p.2
  | none => none

def LabelMap.insert (m : LabelMap) (k : List Char) (v : Nat) : LabelMap :=
  (k, v) :: m

/-- Assembler intermediate for one source line (memory_slices.rs). -/
inductive MemorySlices where
  | opcodeW (w : Nat)
  | pending (first : Nat) (lbl : List Char) (line : Nat)
  | byteB (b : Nat)
  | wordW (w : Nat)
  | empty
deriving DecidableEq

/-- Range checks of cast_line: `addr!`, `byte!`, `nibble!`. -/
def chkAddr (v lineNo : Nat) : Except AsmError Nat :=
  if v > 0xFFF then .error (.invalidAddress v lineNo) else .ok v

def chkByte (v lineNo : Nat) : Except AsmError Nat :=
  if v > 0xFF then .error (.invalidByte v lineNo) else .ok v

def chkNibble (v lineNo : Nat) : Except AsmError Nat :=
  if v > 0xF then .error (.invalidNibble v lineNo) else .ok v

/-- Template `op_sxyn`: nibble-check s, x, y, n in order then pack the opcode
word (the four nibble fields are disjoint). -/
def opSxyn (lineNo s x y n : Nat) : Except AsmError MemorySlices := do
  let s ← chkNibble s lineNo
  let x ← chkNibble x lineNo
  let y ← chkNibble y lineNo
  let n ← chkNibble n lineNo
  .ok (.opcodeW ((s <<< 12) ||| (x <<< 8) ||| (y <<< 4) ||| n))

/-- Template `op_snnn`. -/
def opSnnn (lineNo s nnn : Nat) : Except AsmError MemorySlices := do
  let s ← chkNibble s lineNo
  let nnn ← chkAddr nnn lineNo
  .ok (.opcodeW ((s <<< 12) ||| nnn))

/-- Template `op_sxkk` (s and x are not range-checked in the source). -/
def opSxkk (lineNo s x kk : Nat) : Except AsmError MemorySlices := do
  let kk ← chkByte kk lineNo
  .ok (.opcodeW ((s <<< 12) ||| (x <<< 8) ||| kk))

/-- Template `op_slabel`: resolve immediately when the label is already known
(no 12-bit mask in this path), otherwise a Pending slice. -/
def opSlabel (lineNo s : Nat) (lbl : List Char) (labels : LabelMap) :
    Except AsmError MemorySlices :=
  if labels.containsKey lbl then
    match labels.getVal lbl with
    | some addr => .ok (.opcodeW ((s <<< 12) ||| addr))
    | none => .ok (.pending s lbl lineNo)
  else .ok (.pending s lbl lineNo)

/-- cast_line: match the token sequence against the instruction templates, in
source order.  The emission cursor (`address`, a u16, hence the `% 65536`) is
advanced BEFORE the range checks, exactly as the macros do, so a failing line
still moves the cursor. -/
def castLine (tokens : List AToken) (lineNo address : Nat) (labels : LabelMap) :
    (Except AsmError MemorySlices) × Nat × LabelMap :=
  match tokens with
  | [] => (.ok .empty, address, labels)
  | [.label lbl] =>
    if labels.containsKey lbl then (.error (.duplicateLabel lbl lineNo), address, labels)
    else (.ok .empty, address, labels.insert lbl address)
  | [.ident ['C','L','S']] => (opSxyn lineNo 0x0 0x0 0xE 0x0, (address + 2) % 65536, labels)
  | [.ident ['R','E','T']] => (opSxyn lineNo 0x0 0x0 0xE 0xE, (address + 2) % 65536, labels)
  | [.ident ['S','Y','S'], .num a] => (opSnnn lineNo 0x0 a, (address + 2) % 65536, labels)
  | [.ident ['S','Y','S'], .ident lb] =>
    (opSlabel lineNo 0x0 lb labels, (address + 2) % 65536, labels)
  | [.ident ['J','P'], .num a] => (opSnnn lineNo 0x1 a, (address + 2) % 65536, labels)
  | [.ident ['J','P'], .ident lb] =>
    (opSlabel lineNo 0x1 lb labels, (address + 2) % 65536, labels)
  | [.ident ['C','A','L','L'], .num a] => (opSnnn lineNo 0x2 a, (address + 2) % 65536, labels)
  | [.ident ['C','A','L','L'], .ident lb] =>
    (opSlabel lineNo 0x2 lb labels, (address + 2) % 65536, labels)
  | [.ident ['S','E'], .reg x, .comma, .num kk] =>
    (opSxkk lineNo 0x3 x kk, (address + 2) % 65536, labels)
  | [.ident ['S','N','E'], .reg x, .comma, .num kk] =>
    (opSxkk lineNo 0x4 x kk, (address + 2) % 65536, labels)
  | [.ident ['S','E'], .reg x, .comma, .reg y] =>
    (opSxyn lineNo 0x5 x y 0x0, (address + 2) % 65536, labels)
  | [.ident ['L','D'], .reg x, .comma, .num kk] =>
    (opSxkk lineNo 0x6 x kk, (address + 2) % 65536, labels)
  | [.ident ['A','D','D'], .reg x, .comma, .num kk] =>
    (opSxkk lineNo 0x7 x kk, (address + 2) % 65536, labels)
  | [.ident ['L','D'], .reg x, .comma, .reg y] =>
    (opSxyn lineNo 0x8 x y 0x0, (address + 2) % 65536, labels)
  | [.ident ['O','R'], .reg x, .comma, .reg y] =>
    (opSxyn lineNo 0x8 x y 0x1, (address + 2) % 65536, labels)
  | [.ident ['A','N','D'], .reg x, .comma, .reg y] =>
    (opSxyn lineNo 0x8 x y 0x2, (address + 2) % 65536, labels)
  | [.ident ['X','O','R'], .reg x, .comma, .reg y] =>
    (opSxyn lineNo 0x8 x y 0x3, (address + 2) % 65536, labels)
  | [.ident ['A','D','D'], .reg x, .comma, .reg y] =>
    (opSxyn lineNo 0x8 x y 0x4, (address + 2) % 65536, labels)
  | [.ident ['S','U','B'], .reg x, .comma, .reg y] =>
    (opSxyn lineNo 0x8 x y 0x5, (address + 2) % 65536, labels)
  | [.ident ['S','H','R'], .reg x] =>
    (opSxyn lineNo 0x8 x 0x1 0x06, (address + 2) % 65536, labels)
  | [.ident ['S','U','B','N'], .reg x, .comma, .reg y] =>
    (opSxyn lineNo 0x8 x y 0x7, (address + 2) % 65536, labels)
  | [.ident ['S','H','L'], .reg x] =>
    (opSxyn lineNo 0x8 x 0x0 0x0E, (address + 2) % 65536, labels)
  | [.ident ['S','N','E'], .reg x, .comma, .reg y] =>
    (opSxyn lineNo 0x9 x y 0x0, (address + 2) % 65536, labels)
  | [.ident ['L','D'], .ident ['I'], .comma, .num a] =>
    (opSnnn lineNo 0xA a, (address + 2) % 65536, labels)
  | [.ident ['L','D'], .ident ['I'], .comma, .ident lb] =>
    (opSlabel lineNo 0xA lb labels, (address + 2) % 65536, labels)
  | [.ident ['J','P'], .reg 0, .comma, .num a] =>
    (opSnnn lineNo 0xB a, (address + 2) % 65536, labels)
  | [.ident ['J','P'], .reg 0, .comma, .ident lb] =>
    (opSlabel lineNo 0xB lb labels, (address + 2) % 65536, labels)
  | [.ident ['R','N','D'], .reg x, .comma, .num kk] =>
    (opSxkk lineNo 0xC x kk, (address + 2) % 65536, labels)
  | [.ident ['D','R','W'], .reg x, .comma, .reg y, .comma, .num n] =>
    (opSxyn lineNo 0xD x y n, (address + 2) % 65536, labels)
  | [.ident ['S','K','P'], .reg x] =>
    (opSxyn lineNo 0xE x 0x9 0xE, (address + 2) % 65536, labels)
  | [.ident ['S','K','N','P'], .reg x] =>
    (opSxyn lineNo 0xE x 0xA 0x1, (address + 2) % 65536, labels)
  | [.ident ['L','D'], .reg x, .comma, .ident ['D','T']] =>
    (opSxyn lineNo 0xF x 0x0 0x7, (address + 2) % 65536, labels)
  | [.ident ['L','D'], .reg x, .comma, .ident ['K']] =>
    (opSxyn lineNo 0xF x 0x0 0xA, (address + 2) % 65536, labels)
  | [.ident ['L','D'], .ident ['D','T'], .comma, .reg x] =>
    (opSxyn lineNo 0xF x 0x1 0x5, (address + 2) % 65536, labels)
  | [.ident ['L','D'], .ident ['S','T'], .comma, .reg x] =>
    (opSxyn lineNo 0xF x 0x1 0x8, (address + 2) % 65536, labels)
  | [.ident ['A','D','D'], .ident ['I'], .comma, .reg x] =>
    (opSxyn lineNo 0xF x 0x1 0xE, (address + 2) % 65536, labels)
  | [.ident ['L','D'], .ident ['F'], .comma, .reg x] =>
    (opSxyn lineNo 0xF x 0x2 0x9, (address + 2) % 65536, labels)
  | [.ident ['L','D'], .ident ['B'], .comma, .reg x] =>
    (opSxyn lineNo 0xF x 0x3 0x3, (address + 2) % 65536, labels)
  | [.ident ['L','D'], .ident ['[','I',']'], .comma, .reg x] =>
    (opSxyn lineNo 0xF x 0x5 0x5, (address + 2) % 65536, labels)
  | [.ident ['L','D'], .reg x, .comma, .ident ['[','I',']']] =>
    (opSxyn lineNo 0xF x 0x6 0x5, (address + 2) % 65536, labels)
  | [.ident ['D','B'], .num n] =>
    ((chkByte n lineNo).map .byteB, (address + 1) % 65536, labels)
  | [.ident ['D','W'], .num n] => (.ok (.wordW n), (address + 2) % 65536, labels)
  | toks => (.error (.invalidLine toks lineNo), address, labels)

/-- Pass 1 over the tokenized lines: thread the cursor and label table through
`cast_line` (also past failed lines, as the `map` in `assemble` does) and
return the per-line results together with the final label table. -/
def pass1 (lns : List (Except AsmError (List AToken × Nat))) (address : Nat)
    (labels : LabelMap) : List (Except AsmError MemorySlices) × LabelMap :=
  match lns with
  | [] => ([], labels)
  | l :: rest =>
    match l with
    | .error e =>
      let p := pass1 rest address labels
      (.error e :: p.1, p.2)
    | .ok (toks, ln) =>
      let c := castLine toks ln address labels
      let p := pass1 rest c.2.1 c.2.2
      (c.1 :: p.1, p.2)

/-- MemorySlices::write: the bytes one slice contributes to the output
(u16 values are emitted big-endian; a Pending slice resolves its label with a
12-bit mask or fails with UndefinedLabel). -/
def MemorySlices.writeSlice (s : MemorySlices) (labels : LabelMap) :
    Except AsmError (List Nat) :=
  match s with
  | .opcodeW w => .ok [w / 256, w % 256]
  | .wordW w => .ok [w / 256, w % 256]
  | .pending first lbl ln =>
    match labels.getVal lbl with
    | some addr => .ok [((first <<< 12) ||| (addr % 4096)) / 256, ((first <<< 12) ||| (addr % 4096)) % 256]
    | none => .error (.undefinedLabel lbl ln)
  | .byteB b => .ok [b]
  | .empty => .ok []

/-- Pass 2 (the `for result in slices` loop of `assemble`): write each slice's
bytes to the sink in order; the first error (a pass-1 error or an undefined
label discovered while writing) stops the loop.  Bytes already written before
the error remain in the sink, exactly as with the streaming writer. -/
def pass2 (slices : List (Except AsmError MemorySlices)) (labels : LabelMap) :
    List Nat × Option AsmError :=
  match slices with
  | [] => ([], none)
  | r :: rest =>
    match r with
    | .error e => ([], some e)
    | .ok s =>
      match s.writeSlice labels with
      | .error e => ([], some e)
      | .ok bs =>
        let p := pass2 rest labels
        (bs ++ p.1, p.2)

/-- assemble (r8-assembly lib.rs): tokenize, pass 1 from cursor 0x200 with an
empty label table, pass 2 with the final table.  The result is the byte list
written to the output sink, plus the error (if any) that `assemble` returned. -/
def assemble (src : List Char) : List Nat × Option AsmError :=
  let lns := tokenize src
  let p := pass1 lns 0x200 []
  pass2 p.1 p.2

/-! Helper lemmas about the memory primitives. -/

/-- Branch selection on a false condition (named form of the library fact,
kept local so the long decoder chains read uniformly). -/
theorem if_no {c : Prop} [Decidable c] (hnc : ¬c) {α : Sort u_1} {t e : α} :
    (if c then t else e) = e := if_neg hnc

/-- Branch selection on a true condition. -/
theorem if_yes {c : Prop} [Decidable c] (hc : c) {α : Sort u_1} {t e : α} :
    (if c then t else e) = t := if_pos hc

/-- Pointwise description of `writeBytes`. -/
theorem writeBytes_apply (data : List Nat) (m : Mem) (start a : Nat) :
    writeBytes m start data a =
      if start ≤ a ∧ a < start + data.length then data.getD (a - start) 0 else m a := by
  induction data generalizing m start with
  | nil =>
    show m a = _
    rw [if_neg (by simp)]
  | cons b rest ih =>
    show writeBytes _ (start + 1) rest a = _
    rw [ih]
    simp only [List.length_cons]
    by_cases h1 : start + 1 ≤ a ∧ a < start + 1 + rest.length
    · rw [if_pos h1, if_yes (by omega)]
      have hs : a - start = (a - (start + 1)) + 1 := by omega
      rw [hs, List.getD_cons_succ]
    · rw [if_neg h1]
      by_cases h2 : a = start
      · subst h2
        simp only [if_pos rfl]
        rw [if_pos (show a ≤ a ∧ a < a + (rest.length + 1) by omega)]
        rw [Nat.sub_self, List.getD_cons_zero]
        simp
      · simp only [if_neg h2]
        rw [if_no (by omega)]

/-! Observables used to state concrete executions: the interpreter's result is
projected to decidable data (register values, memory bytes, the program
counter), with `none` standing for a failed tick. -/

/-- Project a tick result through a numeric observation. -/
def tickView (r : Except EmulatorError Emulator) (f : Emulator → Nat) : Option Nat :=
  match r with
  | .ok e => some (f e)
  | .error _ => none

/-- Error carried by an `Except`, if any. -/
def exceptErr {α : Type} (r : Except EmulatorError α) : Option EmulatorError :=
  match r with
  | .error e => some e
  | .ok _ => none

/-- Display with every pixel off (Display::new / after Display::clear). -/
def clearedDisplay : Display :=
  { vram := fun _ _ => false, updated := false }

/-- C1: the claim says Display::set returns 1 exactly when the XOR erased a lit
pixel; the code's collision test `!(vram ^ pixel) && !pixel` instead fires when
both the old pixel and the sprite bit are off.  Evaluating the code at the
claim's own scenario: blitting 0xFF at (0,0) on an empty display returns 0 and
lights columns 0..7 of row 0; blitting the same byte again erases those pixels
yet returns 0 (the claim requires 1); and blitting 0x00, which erases nothing,
returns 1. -/
theorem c1_display_set_collision_eval :
    (clearedDisplay.set 0 0 0xFF).2 = 0 ∧
    (∀ c, c < 8 → (clearedDisplay.set 0 0 0xFF).1.vram c 0 = true) ∧
    ((clearedDisplay.set 0 0 0xFF).1.set 0 0 0xFF).2 = 0 ∧
    (∀ c, c < 8 → ((clearedDisplay.set 0 0 0xFF).1.set 0 0 0xFF).1.vram c 0 = false) ∧
    (clearedDisplay.set 0 0 0x00).2 = 1 := by
  decide

/-- Emulator with ROM bytes `prog` at 0x200 in state Running (all else as after
Emulator::new with seed 0). -/
def runningEmu (prog : List Nat) : Emulator :=
  { Emulator.mk0 0 with
      state := .Running,
      memory := writeBytes (Emulator.mk0 0).memory 0x200 prog }

/-- C2 failing input: LdIVx{0} (word 0xF055) with V0 = 7, I = 0x300. -/
def c2emuA : Emulator :=
  { runningEmu [0xF0, 0x55] with i := 0x300, registers := VRegs.setR (fun _ => 0) 0 7 }

/-- C2 failing input: LdIVx{1} (word 0xF155) with V0 = 7, V1 = 9, I = 0x300. -/
def c2emuB : Emulator :=
  { runningEmu [0xF1, 0x55] with
      i := 0x300,
      registers := VRegs.setR (VRegs.setR (fun _ => 0) 0 7) 1 9 }

/-- C2 failing input: LdVxI{0} (word 0xF065) with memory[0x300] = 7, V0 = 0. -/
def c2emuC : Emulator :=
  { runningEmu [0xF0, 0x65] with
      i := 0x300,
      memory := writeBytes (runningEmu [0xF0, 0x65]).memory 0x300 [7] }

/-- C2: the claim says LdIVx{x} copies x+1 bytes V[0..=x] and LdVxI{x} loads
x+1 bytes back; the slice `V![0 => x]` produced by the source's inclusive-range
Index impl has length `end - start` = x, so only x bytes move.  Evaluated at
the failing inputs: LdIVx{0} writes nothing to memory[I] (the claim requires
V0 = 7 there), LdIVx{1} writes only V0 and leaves memory[I+1] untouched, and
LdVxI{0} leaves V0 unchanged (the claim requires it to become memory[I] = 7).
I is unchanged in all cases, as the claim states. -/
theorem c2_ld_registers_off_by_one_eval :
    tickView c2emuA.tick (fun e => e.memory 0x300) = some 0 ∧
    tickView c2emuA.tick (fun e => e.i) = some 0x300 ∧
    tickView c2emuB.tick (fun e => e.memory 0x300) = some 7 ∧
    tickView c2emuB.tick (fun e => e.memory 0x301) = some 0 ∧
    tickView c2emuB.tick (fun e => e.i) = some 0x300 ∧
    tickView c2emuC.tick (fun e => e.registers 0) = some 0 := by
  decide

/-- C3 failing input: JpV0{0x300} (word 0xB300) at PC = 0x200 with V[0] = 0. -/
def c3emu : Emulator := runningEmu [0xB3, 0x00]

/-- C3: the claim says JpV0{addr} assigns PC = addr + V[0] absolutely; the code
executes `self.pc.add_assign(address + V![0])` after the fetch increment, so
from PC = 0x200 with V0 = 0 the program counter ends at
0x200 + 2 + 0x300 = 0x502, not 0x300. -/
theorem c3_jpv0_adds_to_pc_eval :
    tickView c3emu.tick (fun e => e.pc) = some 0x502 ∧ (0x502 : Nat) ≠ 0x300 := by
  decide

/-- C4 counterexample: a one-byte range whose only touched address is 0xFFF
(start + len = 0x1000) is rejected by both Memory::read_range and
Memory::write_range, although the claim says such a request succeeds. -/
theorem c4_last_byte_rejected :
    exceptErr (Memory.readRange (fun _ => 0) 0xFFF [7]) = some (.OutOfBounds 0x1000) ∧
    exceptErr (Memory.writeRange (fun _ => 0) 0xFFF 1) = some (.OutOfBounds 0x1000) := by
  decide

/-- C4 (amended): Memory::read_range and Memory::write_range fail exactly when
`start + len > 0xFFF` — that is, when the requested range would touch address
0xFFF or beyond — and succeed otherwise; a request whose last touched byte is
0xFFE (start + len = 0xFFF) succeeds.  On failure the payload is the u16
value `len as u16 + start`, i.e. `(len % 2^16 + start) % 2^16`, which for
buffers of at least 2^16 bytes differs from the exact sum. -/
theorem c4_range_bounds (m : Mem) (a len : Nat) (data : List Nat) :
    ((∃ m2, Memory.readRange m a data = .ok m2) ↔ a + data.length ≤ 0xFFF) ∧
    (a + data.length > 0xFFF →
      Memory.readRange m a data =
        .error (.OutOfBounds ((data.length % 65536 + a) % 65536))) ∧
    ((∃ bs, Memory.writeRange m a len = .ok bs) ↔ a + len ≤ 0xFFF) ∧
    (a + len > 0xFFF →
      Memory.writeRange m a len =
        .error (.OutOfBounds ((len % 65536 + a) % 65536))) := by
  unfold Memory.readRange Memory.writeRange
  refine ⟨?_, ?_, ?_, ?_⟩
  · constructor
    · rintro ⟨m2, hm⟩
      by_contra hgt
      rw [if_yes (by omega)] at hm
      cases hm
    · intro hle
      exact ⟨_, by rw [if_no (by omega)]⟩
  · intro hgt
    rw [if_yes (by omega)]
  · constructor
    · rintro ⟨bs, hb⟩
      by_contra hgt
      rw [if_yes (by omega)] at hb
      cases hb
    · intro hle
      exact ⟨_, by rw [if_no (by omega)]⟩
  · intro hgt
    rw [if_yes (by omega)]

/-- C6 counterexample: the word 0x8006 decodes to the non-Invalid opcode
Shr{0}, but re-encoding with the canonical bit-pattern 0x8X16 yields 0x8016,
which differs from 0x8006. -/
theorem c6_shr_roundtrip_fails :
    Opcode.decode 0x8006 = .Shr 0 ∧
    Opcode.encode (Opcode.decode 0x8006) = 0x8016 ∧
    (0x8016 : Nat) ≠ 0x8006 := by
  decide

/-! Arm characterizations of the opcode decoder, one per decoder branch,
used by the round-trip theorem below.  Each is proved by resolving the
decoder conditions in source order. -/

theorem decode_arm_Cls (w : Nat) (h1 : w = 0x00E0) :
    Opcode.decode w = .Cls := by
  unfold Opcode.decode
  rw [if_yes (by omega)]

theorem decode_arm_Ret (w : Nat) (h1 : w = 0x00EE) :
    Opcode.decode w = .Ret := by
  unfold Opcode.decode
  rw [if_no (by omega), if_yes (by omega)]

theorem decode_arm_Sys (w : Nat) (h1 : w ≤ 0x0FFF) (h2 : w ≠ 0x00E0) (h3 : w ≠ 0x00EE) :
    Opcode.decode w = .Sys (w % 4096) := by
  unfold Opcode.decode
  rw [if_no (by omega), if_no (by omega), if_yes (by omega)]

theorem decode_arm_Jp (w : Nat) (h1 : 0x1000 ≤ w) (h2 : w ≤ 0x1FFF) :
    Opcode.decode w = .Jp (w % 4096) := by
  unfold Opcode.decode
  rw [if_no (by omega), if_no (by omega), if_no (by omega),
      if_yes (by omega)]

theorem decode_arm_Call (w : Nat) (h1 : 0x2000 ≤ w) (h2 : w ≤ 0x2FFF) :
    Opcode.decode w = .Call (w % 4096) := by
  unfold Opcode.decode
  rw [if_no (by omega), if_no (by omega), if_no (by omega),
      if_no (by omega), if_yes (by omega)]

theorem decode_arm_SeByte (w : Nat) (h1 : 0x3000 ≤ w) (h2 : w ≤ 0x3FFF) :
    Opcode.decode w = .SeByte (w / 256 % 16) (w % 256) := by
  unfold Opcode.decode
  rw [if_no (by omega), if_no (by omega), if_no (by omega),
      if_no (by omega), if_no (by omega), if_yes (by omega)]

theorem decode_arm_SneByte (w : Nat) (h1 : 0x4000 ≤ w) (h2 : w ≤ 0x4FFF) :
    Opcode.decode w = .SneByte (w / 256 % 16) (w % 256) := by
  unfold Opcode.decode
  rw [if_no (by omega), if_no (by omega), if_no (by omega),
      if_no (by omega), if_no (by omega), if_no (by omega),
      if_yes (by omega)]

theorem decode_arm_SeRegister (w : Nat) (h1 : 0x5000 ≤ w) (h2 : w ≤ 0x5FFF) (h3 : w % 16 = 0) :
    Opcode.decode w = .SeRegister (w / 256 % 16) (w / 16 % 16) := by
  unfold Opcode.decode
  rw [if_no (by omega), if_no (by omega), if_no (by omega),
      if_no (by omega), if_no (by omega), if_no (by omega),
      if_no (by omega), if_yes (by omega), if_yes (by omega)]

theorem decode_arm_Invalid5 (w : Nat) (h1 : 0x5000 ≤ w) (h2 : w ≤ 0x5FFF) (h3 : w % 16 ≠ 0) :
    Opcode.decode w = .Invalid w := by
  unfold Opcode.decode
  rw [if_no (by omega), if_no (by omega), if_no (by omega),
      if_no (by omega), if_no (by omega), if_no (by omega),
      if_no (by omega), if_yes (by omega), if_no (by omega)]

theorem decode_arm_LdByte (w : Nat) (h1 : 0x6000 ≤ w) (h2 : w ≤ 0x6FFF) :
    Opcode.decode w = .LdByte (w / 256 % 16) (w % 256) := by
  unfold Opcode.decode
  rw [if_no (by omega), if_no (by omega), if_no (by omega),
      if_no (by omega), if_no (by omega), if_no (by omega),
      if_no (by omega), if_no (by omega), if_yes (by omega)]

theorem decode_arm_AddByte (w : Nat) (h1 : 0x7000 ≤ w) (h2 : w ≤ 0x7FFF) :
    Opcode.decode w = .AddByte (w / 256 % 16) (w % 256) := by
  unfold Opcode.decode
  rw [if_no (by omega), if_no (by omega), if_no (by omega),
      if_no (by omega), if_no (by omega), if_no (by omega),
      if_no (by omega), if_no (by omega), if_no (by omega),
      if_yes (by omega)]

theorem decode_arm_LdRegister (w : Nat) (h1 : 0x8000 ≤ w) (h2 : w ≤ 0x8FFF) (h3 : w % 16 = 0) :
    Opcode.decode w = .LdRegister (w / 256 % 16) (w / 16 % 16) := by
  unfold Opcode.decode Opcode.decodeGroup8
  rw [if_no (by omega), if_no (by omega), if_no (by omega),
      if_no (by omega), if_no (by omega), if_no (by omega),
      if_no (by omega), if_no (by omega), if_no (by omega),
      if_no (by omega), if_yes (by omega), if_yes (by omega)]

theorem decode_arm_Or (w : Nat) (h1 : 0x8000 ≤ w) (h2 : w ≤ 0x8FFF) (h3 : w % 16 = 1) :
    Opcode.decode w = .Or (w / 256 % 16) (w / 16 % 16) := by
  unfold Opcode.decode Opcode.decodeGroup8
  rw [if_no (by omega), if_no (by omega), if_no (by omega),
      if_no (by omega), if_no (by omega), if_no (by omega),
      if_no (by omega), if_no (by omega), if_no (by omega),
      if_no (by omega), if_yes (by omega), if_no (by omega),
      if_yes (by omega)]

theorem decode_arm_And (w : Nat) (h1 : 0x8000 ≤ w) (h2 : w ≤ 0x8FFF) (h3 : w % 16 = 2) :
    Opcode.decode w = .And (w / 256 % 16) (w / 16 % 16) := by
  unfold Opcode.decode Opcode.decodeGroup8
  rw [if_no (by omega), if_no (by omega), if_no (by omega),
      if_no (by omega), if_no (by omega), if_no (by omega),
      if_no (by omega), if_no (by omega), if_no (by omega),
      if_no (by omega), if_yes (by omega), if_no (by omega),
      if_no (by omega), if_yes (by omega)]

theorem decode_arm_Xor (w : Nat) (h1 : 0x8000 ≤ w) (h2 : w ≤ 0x8FFF) (h3 : w % 16 = 3) :
    Opcode.decode w = .Xor (w / 256 % 16) (w / 16 % 16) := by
  unfold Opcode.decode Opcode.decodeGroup8
  rw [if_no (by omega), if_no (by omega), if_no (by omega),
      if_no (by omega), if_no (by omega), if_no (by omega),
      if_no (by omega), if_no (by omega), if_no (by omega),
      if_no (by omega), if_yes (by omega), if_no (by omega),
      if_no (by omega), if_no (by omega), if_yes (by omega)]

theorem decode_arm_AddRegister (w : Nat) (h1 : 0x8000 ≤ w) (h2 : w ≤ 0x8FFF) (h3 : w % 16 = 4) :
    Opcode.decode w = .AddRegister (w / 256 % 16) (w / 16 % 16) := by
  unfold Opcode.decode Opcode.decodeGroup8
  rw [if_no (by omega), if_no (by omega), if_no (by omega),
      if_no (by omega), if_no (by omega), if_no (by omega),
      if_no (by omega), if_no (by omega), if_no (by omega),
      if_no (by omega), if_yes (by omega), if_no (by omega),
      if_no (by omega), if_no (by omega), if_no (by omega),
      if_yes (by omega)]

theorem decode_arm_Sub (w : Nat) (h1 : 0x8000 ≤ w) (h2 : w ≤ 0x8FFF) (h3 : w % 16 = 5) :
    Opcode.decode w = .Sub (w / 256 % 16) (w / 16 % 16) := by
  unfold Opcode.decode Opcode.decodeGroup8
  rw [if_no (by omega), if_no (by omega), if_no (by omega),
      if_no (by omega), if_no (by omega), if_no (by omega),
      if_no (by omega), if_no (by omega), if_no (by omega),
      if_no (by omega), if_yes (by omega), if_no (by omega),
      if_no (by omega), if_no (by omega), if_no (by omega),
      if_no (by omega), if_yes (by omega)]

theorem decode_arm_Shr (w : Nat) (h1 : 0x8000 ≤ w) (h2 : w ≤ 0x8FFF) (h3 : w % 16 = 6) :
    Opcode.decode w = .Shr (w / 256 % 16) := by
  unfold Opcode.decode Opcode.decodeGroup8
  rw [if_no (by omega), if_no (by omega), if_no (by omega),
      if_no (by omega), if_no (by omega), if_no (by omega),
      if_no (by omega), if_no (by omega), if_no (by omega),
      if_no (by omega), if_yes (by omega), if_no (by omega),
      if_no (by omega), if_no (by omega), if_no (by omega),
      if_no (by omega), if_no (by omega), if_yes (by omega)]

theorem decode_arm_Subn (w : Nat) (h1 : 0x8000 ≤ w) (h2 : w ≤ 0x8FFF) (h3 : w % 16 = 7) :
    Opcode.decode w = .Subn (w / 256 % 16) (w / 16 % 16) := by
  unfold Opcode.decode Opcode.decodeGroup8
  rw [if_no (by omega), if_no (by omega), if_no (by omega),
      if_no (by omega), if_no (by omega), if_no (by omega),
      if_no (by omega), if_no (by omega), if_no (by omega),
      if_no (by omega), if_yes (by omega), if_no (by omega),
      if_no (by omega), if_no (by omega), if_no (by omega),
      if_no (by omega), if_no (by omega), if_no (by omega),
      if_yes (by omega)]

theorem decode_arm_Shl (w : Nat) (h1 : 0x8000 ≤ w) (h2 : w ≤ 0x8FFF) (h3 : w % 16 = 14) :
    Opcode.decode w = .Shl (w / 256 % 16) := by
  unfold Opcode.decode Opcode.decodeGroup8
  rw [if_no (by omega), if_no (by omega), if_no (by omega),
      if_no (by omega), if_no (by omega), if_no (by omega),
      if_no (by omega), if_no (by omega), if_no (by omega),
      if_no (by omega), if_yes (by omega), if_no (by omega),
      if_no (by omega), if_no (by omega), if_no (by omega),
      if_no (by omega), if_no (by omega), if_no (by omega),
      if_no (by omega), if_yes (by omega)]

theorem decode_arm_Invalid8 (w : Nat) (h1 : 0x8000 ≤ w) (h2 : w ≤ 0x8FFF) (h3 : w % 16 ≠ 0) (h4 : w % 16 ≠ 1) (h5 : w % 16 ≠ 2) (h6 : w % 16 ≠ 3) (h7 : w % 16 ≠ 4) (h8 : w % 16 ≠ 5) (h9 : w % 16 ≠ 6) (h10 : w % 16 ≠ 7) (h11 : w % 16 ≠ 14) :
    Opcode.decode w = .Invalid w := by
  unfold Opcode.decode Opcode.decodeGroup8
  rw [if_no (by omega), if_no (by omega), if_no (by omega),
      if_no (by omega), if_no (by omega), if_no (by omega),
      if_no (by omega), if_no (by omega), if_no (by omega),
      if_no (by omega), if_yes (by omega), if_no (by omega),
      if_no (by omega), if_no (by omega), if_no (by omega),
      if_no (by omega), if_no (by omega), if_no (by omega),
      if_no (by omega), if_no (by omega)]

theorem decode_arm_SneRegister (w : Nat) (h1 : 0x9000 ≤ w) (h2 : w ≤ 0x9FFF) (h3 : w % 16 = 0) :
    Opcode.decode w = .SneRegister (w / 256 % 16) (w / 16 % 16) := by
  unfold Opcode.decode
  rw [if_no (by omega), if_no (by omega), if_no (by omega),
      if_no (by omega), if_no (by omega), if_no (by omega),
      if_no (by omega), if_no (by omega), if_no (by omega),
      if_no (by omega), if_no (by omega), if_yes (by omega),
      if_yes (by omega)]

theorem decode_arm_Invalid9 (w : Nat) (h1 : 0x9000 ≤ w) (h2 : w ≤ 0x9FFF) (h3 : w % 16 ≠ 0) :
    Opcode.decode w = .Invalid w := by
  unfold Opcode.decode
  rw [if_no (by omega), if_no (by omega), if_no (by omega),
      if_no (by omega), if_no (by omega), if_no (by omega),
      if_no (by omega), if_no (by omega), if_no (by omega),
      if_no (by omega), if_no (by omega), if_yes (by omega),
      if_no (by omega)]

theorem decode_arm_LdI (w : Nat) (h1 : 0xA000 ≤ w) (h2 : w ≤ 0xAFFF) :
    Opcode.decode w = .LdI (w % 4096) := by
  unfold Opcode.decode
  rw [if_no (by omega), if_no (by omega), if_no (by omega),
      if_no (by omega), if_no (by omega), if_no (by omega),
      if_no (by omega), if_no (by omega), if_no (by omega),
      if_no (by omega), if_no (by omega), if_no (by omega),
      if_yes (by omega)]

theorem decode_arm_JpV0 (w : Nat) (h1 : 0xB000 ≤ w) (h2 : w ≤ 0xBFFF) :
    Opcode.decode w = .JpV0 (w % 4096) := by
  unfold Opcode.decode
  rw [if_no (by omega), if_no (by omega), if_no (by omega),
      if_no (by omega), if_no (by omega), if_no (by omega),
      if_no (by omega), if_no (by omega), if_no (by omega),
      if_no (by omega), if_no (by omega), if_no (by omega),
      if_no (by omega), if_yes (by omega)]

theorem decode_arm_Rnd (w : Nat) (h1 : 0xC000 ≤ w) (h2 : w ≤ 0xCFFF) :
    Opcode.decode w = .Rnd (w / 256 % 16) (w % 256) := by
  unfold Opcode.decode
  rw [if_no (by omega), if_no (by omega), if_no (by omega),
      if_no (by omega), if_no (by omega), if_no (by omega),
      if_no (by omega), if_no (by omega), if_no (by omega),
      if_no (by omega), if_no (by omega), if_no (by omega),
      if_no (by omega), if_no (by omega), if_yes (by omega)]

theorem decode_arm_Drw (w : Nat) (h1 : 0xD000 ≤ w) (h2 : w ≤ 0xDFFF) :
    Opcode.decode w = .Drw (w / 256 % 16) (w / 16 % 16) (w % 16) := by
  unfold Opcode.decode
  rw [if_no (by omega), if_no (by omega), if_no (by omega),
      if_no (by omega), if_no (by omega), if_no (by omega),
      if_no (by omega), if_no (by omega), if_no (by omega),
      if_no (by omega), if_no (by omega), if_no (by omega),
      if_no (by omega), if_no (by omega), if_no (by omega),
      if_yes (by omega)]

theorem decode_arm_Skp (w : Nat) (h1 : 0xE000 ≤ w) (h2 : w ≤ 0xEFFF) (h3 : w / 16 % 16 = 9 ∧ w % 16 = 14) :
    Opcode.decode w = .Skp (w / 256 % 16) := by
  unfold Opcode.decode Opcode.decodeGroupE
  rw [if_no (by omega), if_no (by omega), if_no (by omega),
      if_no (by omega), if_no (by omega), if_no (by omega),
      if_no (by omega), if_no (by omega), if_no (by omega),
      if_no (by omega), if_no (by omega), if_no (by omega),
      if_no (by omega), if_no (by omega), if_no (by omega),
      if_no (by omega), if_yes (by omega), if_yes (by omega)]

theorem decode_arm_Sknp (w : Nat) (h1 : 0xE000 ≤ w) (h2 : w ≤ 0xEFFF) (h3 : w / 16 % 16 = 10 ∧ w % 16 = 1) :
    Opcode.decode w = .Sknp (w / 256 % 16) := by
  unfold Opcode.decode Opcode.decodeGroupE
  rw [if_no (by omega), if_no (by omega), if_no (by omega),
      if_no (by omega), if_no (by omega), if_no (by omega),
      if_no (by omega), if_no (by omega), if_no (by omega),
      if_no (by omega), if_no (by omega), if_no (by omega),
      if_no (by omega), if_no (by omega), if_no (by omega),
      if_no (by omega), if_yes (by omega), if_no (by omega),
      if_yes (by omega)]

theorem decode_arm_InvalidE (w : Nat) (h1 : 0xE000 ≤ w) (h2 : w ≤ 0xEFFF) (h3 : ¬(w / 16 % 16 = 9 ∧ w % 16 = 14)) (h4 : ¬(w / 16 % 16 = 10 ∧ w % 16 = 1)) :
    Opcode.decode w = .Invalid w := by
  unfold Opcode.decode Opcode.decodeGroupE
  rw [if_no (by omega), if_no (by omega), if_no (by omega),
      if_no (by omega), if_no (by omega), if_no (by omega),
      if_no (by omega), if_no (by omega), if_no (by omega),
      if_no (by omega), if_no (by omega), if_no (by omega),
      if_no (by omega), if_no (by omega), if_no (by omega),
      if_no (by omega), if_yes (by omega), if_no (by omega),
      if_no (by omega)]

theorem decode_arm_LdVxDT (w : Nat) (h1 : 0xF000 ≤ w) (h2 : w ≤ 0xFFFF) (h3 : w / 16 % 16 = 0 ∧ w % 16 = 7) :
    Opcode.decode w = .LdVxDT (w / 256 % 16) := by
  unfold Opcode.decode Opcode.decodeGroupF
  rw [if_no (by omega), if_no (by omega), if_no (by omega),
      if_no (by omega), if_no (by omega), if_no (by omega),
      if_no (by omega), if_no (by omega), if_no (by omega),
      if_no (by omega), if_no (by omega), if_no (by omega),
      if_no (by omega), if_no (by omega), if_no (by omega),
      if_no (by omega), if_no (by omega), if_yes (by omega),
      if_yes (by omega)]

theorem decode_arm_LdVxK (w : Nat) (h1 : 0xF000 ≤ w) (h2 : w ≤ 0xFFFF) (h3 : w / 16 % 16 = 0 ∧ w % 16 = 10) :
    Opcode.decode w = .LdVxK (w / 256 % 16) := by
  unfold Opcode.decode Opcode.decodeGroupF
  rw [if_no (by omega), if_no (by omega), if_no (by omega),
      if_no (by omega), if_no (by omega), if_no (by omega),
      if_no (by omega), if_no (by omega), if_no (by omega),
      if_no (by omega), if_no (by omega), if_no (by omega),
      if_no (by omega), if_no (by omega), if_no (by omega),
      if_no (by omega), if_no (by omega), if_yes (by omega),
      if_no (by omega), if_yes (by omega)]

theorem decode_arm_LdDTVx (w : Nat) (h1 : 0xF000 ≤ w) (h2 : w ≤ 0xFFFF) (h3 : w / 16 % 16 = 1 ∧ w % 16 = 5) :
    Opcode.decode w = .LdDTVx (w / 256 % 16) := by
  unfold Opcode.decode Opcode.decodeGroupF
  rw [if_no (by omega), if_no (by omega), if_no (by omega),
      if_no (by omega), if_no (by omega), if_no (by omega),
      if_no (by omega), if_no (by omega), if_no (by omega),
      if_no (by omega), if_no (by omega), if_no (by omega),
      if_no (by omega), if_no (by omega), if_no (by omega),
      if_no (by omega), if_no (by omega), if_yes (by omega),
      if_no (by omega), if_no (by omega), if_yes (by omega)]

theorem decode_arm_LdSTVx (w : Nat) (h1 : 0xF000 ≤ w) (h2 : w ≤ 0xFFFF) (h3 : w / 16 % 16 = 1 ∧ w % 16 = 8) :
    Opcode.decode w = .LdSTVx (w / 256 % 16) := by
  unfold Opcode.decode Opcode.decodeGroupF
  rw [if_no (by omega), if_no (by omega), if_no (by omega),
      if_no (by omega), if_no (by omega), if_no (by omega),
      if_no (by omega), if_no (by omega), if_no (by omega),
      if_no (by omega), if_no (by omega), if_no (by omega),
      if_no (by omega), if_no (by omega), if_no (by omega),
      if_no (by omega), if_no (by omega), if_yes (by omega),
      if_no (by omega), if_no (by omega), if_no (by omega),
      if_yes (by omega)]

theorem decode_arm_AddIVx (w : Nat) (h1 : 0xF000 ≤ w) (h2 : w ≤ 0xFFFF) (h3 : w / 16 % 16 = 1 ∧ w % 16 = 14) :
    Opcode.decode w = .AddIVx (w / 256 % 16) := by
  unfold Opcode.decode Opcode.decodeGroupF
  rw [if_no (by omega), if_no (by omega), if_no (by omega),
      if_no (by omega), if_no (by omega), if_no (by omega),
      if_no (by omega), if_no (by omega), if_no (by omega),
      if_no (by omega), if_no (by omega), if_no (by omega),
      if_no (by omega), if_no (by omega), if_no (by omega),
      if_no (by omega), if_no (by omega), if_yes (by omega),
      if_no (by omega), if_no (by omega), if_no (by omega),
      if_no (by omega), if_yes (by omega)]

theorem decode_arm_LdFVx (w : Nat) (h1 : 0xF000 ≤ w) (h2 : w ≤ 0xFFFF) (h3 : w / 16 % 16 = 2 ∧ w % 16 = 9) :
    Opcode.decode w = .LdFVx (w / 256 % 16) := by
  unfold Opcode.decode Opcode.decodeGroupF
  rw [if_no (by omega), if_no (by omega), if_no (by omega),
      if_no (by omega), if_no (by omega), if_no (by omega),
      if_no (by omega), if_no (by omega), if_no (by omega),
      if_no (by omega), if_no (by omega), if_no (by omega),
      if_no (by omega), if_no (by omega), if_no (by omega),
      if_no (by omega), if_no (by omega), if_yes (by omega),
      if_no (by omega), if_no (by omega), if_no (by omega),
      if_no (by omega), if_no (by omega), if_yes (by omega)]

theorem decode_arm_LdBVx (w : Nat) (h1 : 0xF000 ≤ w) (h2 : w ≤ 0xFFFF) (h3 : w / 16 % 16 = 3 ∧ w % 16 = 3) :
    Opcode.decode w = .LdBVx (w / 256 % 16) := by
  unfold Opcode.decode Opcode.decodeGroupF
  rw [if_no (by omega), if_no (by omega), if_no (by omega),
      if_no (by omega), if_no (by omega), if_no (by omega),
      if_no (by omega), if_no (by omega), if_no (by omega),
      if_no (by omega), if_no (by omega), if_no (by omega),
      if_no (by omega), if_no (by omega), if_no (by omega),
      if_no (by omega), if_no (by omega), if_yes (by omega),
      if_no (by omega), if_no (by omega), if_no (by omega),
      if_no (by omega), if_no (by omega), if_no (by omega),
      if_yes (by omega)]

theorem decode_arm_LdIVx (w : Nat) (h1 : 0xF000 ≤ w) (h2 : w ≤ 0xFFFF) (h3 : w / 16 % 16 = 5 ∧ w % 16 = 5) :
    Opcode.decode w = .LdIVx (w / 256 % 16) := by
  unfold Opcode.decode Opcode.decodeGroupF
  rw [if_no (by omega), if_no (by omega), if_no (by omega),
      if_no (by omega), if_no (by omega), if_no (by omega),
      if_no (by omega), if_no (by omega), if_no (by omega),
      if_no (by omega), if_no (by omega), if_no (by omega),
      if_no (by omega), if_no (by omega), if_no (by omega),
      if_no (by omega), if_no (by omega), if_yes (by omega),
      if_no (by omega), if_no (by omega), if_no (by omega),
      if_no (by omega), if_no (by omega), if_no (by omega),
      if_no (by omega), if_yes (by omega)]

theorem decode_arm_LdVxI (w : Nat) (h1 : 0xF000 ≤ w) (h2 : w ≤ 0xFFFF) (h3 : w / 16 % 16 = 6 ∧ w % 16 = 5) :
    Opcode.decode w = .LdVxI (w / 256 % 16) := by
  unfold Opcode.decode Opcode.decodeGroupF
  rw [if_no (by omega), if_no (by omega), if_no (by omega),
      if_no (by omega), if_no (by omega), if_no (by omega),
      if_no (by omega), if_no (by omega), if_no (by omega),
      if_no (by omega), if_no (by omega), if_no (by omega),
      if_no (by omega), if_no (by omega), if_no (by omega),
      if_no (by omega), if_no (by omega), if_yes (by omega),
      if_no (by omega), if_no (by omega), if_no (by omega),
      if_no (by omega), if_no (by omega), if_no (by omega),
      if_no (by omega), if_no (by omega), if_yes (by omega)]

theorem decode_arm_InvalidF (w : Nat) (h1 : 0xF000 ≤ w) (h2 : w ≤ 0xFFFF) (h3 : ¬(w / 16 % 16 = 0 ∧ w % 16 = 7)) (h4 : ¬(w / 16 % 16 = 0 ∧ w % 16 = 10)) (h5 : ¬(w / 16 % 16 = 1 ∧ w % 16 = 5)) (h6 : ¬(w / 16 % 16 = 1 ∧ w % 16 = 8)) (h7 : ¬(w / 16 % 16 = 1 ∧ w % 16 = 14)) (h8 : ¬(w / 16 % 16 = 2 ∧ w % 16 = 9)) (h9 : ¬(w / 16 % 16 = 3 ∧ w % 16 = 3)) (h10 : ¬(w / 16 % 16 = 5 ∧ w % 16 = 5)) (h11 : ¬(w / 16 % 16 = 6 ∧ w % 16 = 5)) :
    Opcode.decode w = .Invalid w := by
  unfold Opcode.decode Opcode.decodeGroupF
  rw [if_no (by omega), if_no (by omega), if_no (by omega),
      if_no (by omega), if_no (by omega), if_no (by omega),
      if_no (by omega), if_no (by omega), if_no (by omega),
      if_no (by omega), if_no (by omega), if_no (by omega),
      if_no (by omega), if_no (by omega), if_no (by omega),
      if_no (by omega), if_no (by omega), if_yes (by omega),
      if_no (by omega), if_no (by omega), if_no (by omega),
      if_no (by omega), if_no (by omega), if_no (by omega),
      if_no (by omega), if_no (by omega), if_no (by omega)]

/-- C6 (amended): for every 16-bit word whose decoding yields a non-Invalid
opcode, re-encoding with the canonical bit-pattern reproduces the word exactly,
EXCEPT for the Shr and Shl arms, whose decoding discards the y nibble: for
those the canonical patterns are 0x8X16 and 0x8X0E, so the re-encoding equals
the original word precisely when its y nibble already is 1 (Shr) respectively
0 (Shl). -/
theorem c6_decode_encode_roundtrip (w : Nat) (hw : w ≤ 0xFFFF)
    (hni : Opcode.decode w ≠ .Invalid w) :
    ((∀ x, Opcode.decode w ≠ .Shr x ∧ Opcode.decode w ≠ .Shl x) →
       Opcode.encode (Opcode.decode w) = w) ∧
    (∀ x, Opcode.decode w = .Shr x → (Opcode.encode (Opcode.decode w) = w ↔ nib2 w = 1)) ∧
    (∀ x, Opcode.decode w = .Shl x → (Opcode.encode (Opcode.decode w) = w ↔ nib2 w = 0)) := by
  simp only [nib2]
  by_cases c0 : w = 0x00E0
  · rw [decode_arm_Cls w c0]
    exact ⟨fun _ => by simp only [Opcode.encode]; omega,
           fun x0 hx => Opcode.noConfusion hx,
           fun x0 hx => Opcode.noConfusion hx⟩
  by_cases c1 : w = 0x00EE
  · rw [decode_arm_Ret w c1]
    exact ⟨fun _ => by simp only [Opcode.encode]; omega,
           fun x0 hx => Opcode.noConfusion hx,
           fun x0 hx => Opcode.noConfusion hx⟩
  by_cases c2 : w ≤ 0x0FFF
  · rw [decode_arm_Sys w c2 c0 c1]
    exact ⟨fun _ => by simp only [Opcode.encode]; omega,
           fun x0 hx => Opcode.noConfusion hx,
           fun x0 hx => Opcode.noConfusion hx⟩
  by_cases c3 : w ≤ 0x1FFF
  · rw [decode_arm_Jp w (by omega) c3]
    exact ⟨fun _ => by simp only [Opcode.encode]; omega,
           fun x0 hx => Opcode.noConfusion hx,
           fun x0 hx => Opcode.noConfusion hx⟩
  by_cases c4 : w ≤ 0x2FFF
  · rw [decode_arm_Call w (by omega) c4]
    exact ⟨fun _ => by simp only [Opcode.encode]; omega,
           fun x0 hx => Opcode.noConfusion hx,
           fun x0 hx => Opcode.noConfusion hx⟩
  by_cases c5 : w ≤ 0x3FFF
  · rw [decode_arm_SeByte w (by omega) c5]
    exact ⟨fun _ => by simp only [Opcode.encode]; omega,
           fun x0 hx => Opcode.noConfusion hx,
           fun x0 hx => Opcode.noConfusion hx⟩
  by_cases c6 : w ≤ 0x4FFF
  · rw [decode_arm_SneByte w (by omega) c6]
    exact ⟨fun _ => by simp only [Opcode.encode]; omega,
           fun x0 hx => Opcode.noConfusion hx,
           fun x0 hx => Opcode.noConfusion hx⟩
  by_cases c7 : w ≤ 0x5FFF
  · by_cases m5 : w % 16 = 0
    · rw [decode_arm_SeRegister w (by omega) c7 m5]
      exact ⟨fun _ => by simp only [Opcode.encode]; omega,
             fun x0 hx => Opcode.noConfusion hx,
             fun x0 hx => Opcode.noConfusion hx⟩
    exact absurd (decode_arm_Invalid5 w (by omega) c7 m5) hni
  by_cases c8 : w ≤ 0x6FFF
  · rw [decode_arm_LdByte w (by omega) c8]
    exact ⟨fun _ => by simp only [Opcode.encode]; omega,
           fun x0 hx => Opcode.noConfusion hx,
           fun x0 hx => Opcode.noConfusion hx⟩
  by_cases c9 : w ≤ 0x7FFF
  · rw [decode_arm_AddByte w (by omega) c9]
    exact ⟨fun _ => by simp only [Opcode.encode]; omega,
           fun x0 hx => Opcode.noConfusion hx,
           fun x0 hx => Opcode.noConfusion hx⟩
  by_cases c10 : w ≤ 0x8FFF
  · -- the 0x8000 group
    by_cases g0 : w % 16 = 0
    · rw [decode_arm_LdRegister w (by omega) c10 g0]
      exact ⟨fun _ => by simp only [Opcode.encode]; omega,
             fun x0 hx => Opcode.noConfusion hx,
             fun x0 hx => Opcode.noConfusion hx⟩
    by_cases g1 : w % 16 = 1
    · rw [decode_arm_Or w (by omega) c10 g1]
      exact ⟨fun _ => by simp only [Opcode.encode]; omega,
             fun x0 hx => Opcode.noConfusion hx,
             fun x0 hx => Opcode.noConfusion hx⟩
    by_cases g2 : w % 16 = 2
    · rw [decode_arm_And w (by omega) c10 g2]
      exact ⟨fun _ => by simp only [Opcode.encode]; omega,
             fun x0 hx => Opcode.noConfusion hx,
             fun x0 hx => Opcode.noConfusion hx⟩
    by_cases g3 : w % 16 = 3
    · rw [decode_arm_Xor w (by omega) c10 g3]
      exact ⟨fun _ => by simp only [Opcode.encode]; omega,
             fun x0 hx => Opcode.noConfusion hx,
             fun x0 hx => Opcode.noConfusion hx⟩
    by_cases g4 : w % 16 = 4
    · rw [decode_arm_AddRegister w (by omega) c10 g4]
      exact ⟨fun _ => by simp only [Opcode.encode]; omega,
             fun x0 hx => Opcode.noConfusion hx,
             fun x0 hx => Opcode.noConfusion hx⟩
    by_cases g5 : w % 16 = 5
    · rw [decode_arm_Sub w (by omega) c10 g5]
      exact ⟨fun _ => by simp only [Opcode.encode]; omega,
             fun x0 hx => Opcode.noConfusion hx,
             fun x0 hx => Opcode.noConfusion hx⟩
    by_cases g6 : w % 16 = 6
    · rw [decode_arm_Shr w (by omega) c10 g6]
      exact ⟨fun hns => absurd rfl (hns (w / 256 % 16)).1,
             fun x0 hx => by simp only [Opcode.encode]; omega,
             fun x0 hx => Opcode.noConfusion hx⟩
    by_cases g7 : w % 16 = 7
    · rw [decode_arm_Subn w (by omega) c10 g7]
      exact ⟨fun _ => by simp only [Opcode.encode]; omega,
             fun x0 hx => Opcode.noConfusion hx,
             fun x0 hx => Opcode.noConfusion hx⟩
    by_cases g8 : w % 16 = 14
    · rw [decode_arm_Shl w (by omega) c10 g8]
      exact ⟨fun hns => absurd rfl (hns (w / 256 % 16)).2,
             fun x0 hx => Opcode.noConfusion hx,
             fun x0 hx => by simp only [Opcode.encode]; omega⟩
    exact absurd (decode_arm_Invalid8 w (by omega) c10 g0 g1 g2 g3 g4 g5 g6 g7 g8) hni
  by_cases c11 : w ≤ 0x9FFF
  · by_cases m9 : w % 16 = 0
    · rw [decode_arm_SneRegister w (by omega) c11 m9]
      exact ⟨fun _ => by simp only [Opcode.encode]; omega,
             fun x0 hx => Opcode.noConfusion hx,
             fun x0 hx => Opcode.noConfusion hx⟩
    exact absurd (decode_arm_Invalid9 w (by omega) c11 m9) hni
  by_cases c12 : w ≤ 0xAFFF
  · rw [decode_arm_LdI w (by omega) c12]
    exact ⟨fun _ => by simp only [Opcode.encode]; omega,
           fun x0 hx => Opcode.noConfusion hx,
           fun x0 hx => Opcode.noConfusion hx⟩
  by_cases c13 : w ≤ 0xBFFF
  · rw [decode_arm_JpV0 w (by omega) c13]
    exact ⟨fun _ => by simp only [Opcode.encode]; omega,
           fun x0 hx => Opcode.noConfusion hx,
           fun x0 hx => Opcode.noConfusion hx⟩
  by_cases c14 : w ≤ 0xCFFF
  · rw [decode_arm_Rnd w (by omega) c14]
    exact ⟨fun _ => by simp only [Opcode.encode]; omega,
           fun x0 hx => Opcode.noConfusion hx,
           fun x0 hx => Opcode.noConfusion hx⟩
  by_cases c15 : w ≤ 0xDFFF
  · rw [decode_arm_Drw w (by omega) c15]
    exact ⟨fun _ => by simp only [Opcode.encode]; omega,
           fun x0 hx => Opcode.noConfusion hx,
           fun x0 hx => Opcode.noConfusion hx⟩
  by_cases c16 : w ≤ 0xEFFF
  · -- the 0xE000 group
    by_cases e0 : w / 16 % 16 = 9 ∧ w % 16 = 14
    · rw [decode_arm_Skp w (by omega) c16 e0]
      exact ⟨fun _ => by simp only [Opcode.encode]; omega,
             fun x0 hx => Opcode.noConfusion hx,
             fun x0 hx => Opcode.noConfusion hx⟩
    by_cases e1 : w / 16 % 16 = 10 ∧ w % 16 = 1
    · rw [decode_arm_Sknp w (by omega) c16 e1]
      exact ⟨fun _ => by simp only [Opcode.encode]; omega,
             fun x0 hx => Opcode.noConfusion hx,
             fun x0 hx => Opcode.noConfusion hx⟩
    exact absurd (decode_arm_InvalidE w (by omega) c16 e0 e1) hni
  -- the 0xF000 group
  by_cases f0 : w / 16 % 16 = 0 ∧ w % 16 = 7
  · rw [decode_arm_LdVxDT w (by omega) hw f0]
    exact ⟨fun _ => by simp only [Opcode.encode]; omega,
           fun x0 hx => Opcode.noConfusion hx,
           fun x0 hx => Opcode.noConfusion hx⟩
  by_cases f1 : w / 16 % 16 = 0 ∧ w % 16 = 10
  · rw [decode_arm_LdVxK w (by omega) hw f1]
    exact ⟨fun _ => by simp only [Opcode.encode]; omega,
           fun x0 hx => Opcode.noConfusion hx,
           fun x0 hx => Opcode.noConfusion hx⟩
  by_cases f2 : w / 16 % 16 = 1 ∧ w % 16 = 5
  · rw [decode_arm_LdDTVx w (by omega) hw f2]
    exact ⟨fun _ => by simp only [Opcode.encode]; omega,
           fun x0 hx => Opcode.noConfusion hx,
           fun x0 hx => Opcode.noConfusion hx⟩
  by_cases f3 : w / 16 % 16 = 1 ∧ w % 16 = 8
  · rw [decode_arm_LdSTVx w (by omega) hw f3]
    exact ⟨fun _ => by simp only [Opcode.encode]; omega,
           fun x0 hx => Opcode.noConfusion hx,
           fun x0 hx => Opcode.noConfusion hx⟩
  by_cases f4 : w / 16 % 16 = 1 ∧ w % 16 = 14
  · rw [decode_arm_AddIVx w (by omega) hw f4]
    exact ⟨fun _ => by simp only [Opcode.encode]; omega,
           fun x0 hx => Opcode.noConfusion hx,
           fun x0 hx => Opcode.noConfusion hx⟩
  by_cases f5 : w / 16 % 16 = 2 ∧ w % 16 = 9
  · rw [decode_arm_LdFVx w (by omega) hw f5]
    exact ⟨fun _ => by simp only [Opcode.encode]; omega,
           fun x0 hx => Opcode.noConfusion hx,
           fun x0 hx => Opcode.noConfusion hx⟩
  by_cases f6 : w / 16 % 16 = 3 ∧ w % 16 = 3
  · rw [decode_arm_LdBVx w (by omega) hw f6]
    exact ⟨fun _ => by simp only [Opcode.encode]; omega,
           fun x0 hx => Opcode.noConfusion hx,
           fun x0 hx => Opcode.noConfusion hx⟩
  by_cases f7 : w / 16 % 16 = 5 ∧ w % 16 = 5
  · rw [decode_arm_LdIVx w (by omega) hw f7]
    exact ⟨fun _ => by simp only [Opcode.encode]; omega,
           fun x0 hx => Opcode.noConfusion hx,
           fun x0 hx => Opcode.noConfusion hx⟩
  by_cases f8 : w / 16 % 16 = 6 ∧ w % 16 = 5
  · rw [decode_arm_LdVxI w (by omega) hw f8]
    exact ⟨fun _ => by simp only [Opcode.encode]; omega,
           fun x0 hx => Opcode.noConfusion hx,
           fun x0 hx => Opcode.noConfusion hx⟩
  exact absurd (decode_arm_InvalidF w (by omega) hw f0 f1 f2 f3 f4 f5 f6 f7 f8) hni

/-- C6 witness: the amended round-trip instantiated at the SeByte word 0x3344
and at the Shr word 0x8A16 (canonical y nibble). -/
theorem c6_decode_encode_roundtrip_witness :
    (0x3344 : Nat) ≤ 0xFFFF ∧ Opcode.decode 0x3344 ≠ .Invalid 0x3344 ∧
    (((∀ x, Opcode.decode 0x3344 ≠ .Shr x ∧ Opcode.decode 0x3344 ≠ .Shl x) →
        Opcode.encode (Opcode.decode 0x3344) = 0x3344) ∧
      (∀ x, Opcode.decode 0x3344 = .Shr x →
        (Opcode.encode (Opcode.decode 0x3344) = 0x3344 ↔ nib2 0x3344 = 1)) ∧
      (∀ x, Opcode.decode 0x3344 = .Shl x →
        (Opcode.encode (Opcode.decode 0x3344) = 0x3344 ↔ nib2 0x3344 = 0))) :=
  ⟨by decide, by decide, c6_decode_encode_roundtrip 0x3344 (by decide) (by decide)⟩

/-- C8: AddReg{x, y} computes the 16-bit sum V[x] + V[y], stores its low byte
into V[x], then writes the carry (1 iff the sum exceeds 0xFF) into V[0xF];
because the flag is written after V[x], when x = 0xF the final V[0xF] is the
carry flag, not the sum's low byte.  Register values are bytes and the fetch
increment must stay in range for the instruction to execute. -/
theorem c8_add_register (e : Emulator) (x y : Nat) (_hx : x < 16) (_hy : y < 16)
    (hrx : e.registers x ≤ 255) (hry : e.registers y ≤ 255) (hpc : e.pc + 2 ≤ 0xFFF) :
    ∃ e2, e.executeOpcode (.AddRegister x y) = .ok e2 ∧
      e2.registers 0xF = (if 0xFF < e.registers x + e.registers y then 1 else 0) ∧
      (x ≠ 0xF → e2.registers x = (e.registers x + e.registers y) % 256) ∧
      (∀ j, j ≠ x → j ≠ 0xF → e2.registers j = e.registers j) ∧
      e2.pc = e.pc + 2 := by
  have hpcok : Address.addAssign e.pc 2 = .ok (e.pc + 2) := by
    unfold Address.addAssign Address.tryNew
    rw [if_no (by omega)]
  refine ⟨{ e with
              pc := e.pc + 2,
              registers := VRegs.setR
                (VRegs.setR e.registers x ((e.registers x + e.registers y) % 256)) 0xF
                (if (e.registers x + e.registers y) / 256 % 256 ≠ 0 then 1 else 0) },
          ?_, ?_, ?_, ?_, rfl⟩
  · unfold Emulator.executeOpcode
    rw [hpcok]
    rfl
  · show (if (e.registers x + e.registers y) / 256 % 256 ≠ 0 then (1 : Nat) else 0) = _
    split_ifs <;> omega
  · intro hxf
    show VRegs.setR _ 0xF _ x = _
    unfold VRegs.setR
    rw [if_neg hxf, if_pos rfl]
  · intro j hjx hjf
    show VRegs.setR _ 0xF _ j = _
    unfold VRegs.setR
    rw [if_neg hjf, if_neg hjx]

/-- C8 witness: AddReg{1, 2} with V1 = 200, V2 = 100 at PC = 0x200. -/
theorem c8_add_register_witness :
    ((1 : Nat) < 16 ∧ (2 : Nat) < 16 ∧
      c2emuB.registers 1 ≤ 255 ∧ c2emuB.registers 2 ≤ 255 ∧ c2emuB.pc + 2 ≤ 0xFFF) ∧
    (∃ e2, c2emuB.executeOpcode (.AddRegister 1 2) = .ok e2 ∧
      e2.registers 0xF = (if 0xFF < c2emuB.registers 1 + c2emuB.registers 2 then 1 else 0) ∧
      ((1 : Nat) ≠ 0xF → e2.registers 1 = (c2emuB.registers 1 + c2emuB.registers 2) % 256) ∧
      (∀ j, j ≠ 1 → j ≠ 0xF → e2.registers j = c2emuB.registers j) ∧
      e2.pc = c2emuB.pc + 2) :=
  ⟨⟨by decide, by decide, by decide, by decide, by decide⟩,
   c8_add_register c2emuB 1 2 (by decide) (by decide) (by decide) (by decide) (by decide)⟩

/-- List.find? over List.range returns the least index satisfying the
predicate, together with the bound and the predicate value. -/
theorem find?_range_least (p : Nat → Bool) :
    ∀ n k, (List.range n).find? p = some k →
      p k = true ∧ k < n ∧ ∀ j, j < k → p j = false := by
  intro n
  induction n with
  | zero => intro k h; simp [List.range_zero] at h
  | succ n ih =>
    intro k h
    rw [List.range_succ, List.find?_append] at h
    cases hfind : (List.range n).find? p with
    | some a =>
      rw [hfind] at h
      simp only [Option.or_some] at h
      cases h
      obtain ⟨hp, hlt, hleast⟩ := ih _ hfind
      exact ⟨hp, by omega, hleast⟩
    | none =>
      rw [hfind] at h
      simp only [Option.none_or] at h
      cases hpn : p n with
      | true =>
        rw [List.find?_cons, hpn] at h
        cases h
        refine ⟨hpn, by omega, fun j hj => ?_⟩
        have hnone := List.find?_eq_none.mp hfind j (List.mem_range.mpr hj)
        simpa using hnone
      | false =>
        rw [List.find?_cons, hpn] at h
        simp at h


/-- C10: a tick in state WaitingKey{x} with at least one key pressed writes the
lowest-numbered pressed key (keys scanned in ascending order 0x0..=0xF) into
V[x], switches the state to Running, and the same tick then decrements both
timers and fetches and executes the next instruction (the tickRun phase, whose
unfolding into timer decrement, fetch and execute is stated as the last
conjunct). -/
theorem c10_waiting_key_resumes (e : Emulator) (x : Nat)
    (hs : e.state = .WaitingKey x)
    (hk : ∃ k, k < 16 ∧ KeyBoard.isSet e.keyboard k = true) :
    ∃ k0, (List.range 16).find? (fun k => KeyBoard.isSet e.keyboard k) = some k0 ∧
      KeyBoard.isSet e.keyboard k0 = true ∧ k0 < 16 ∧
      (∀ j, j < k0 → KeyBoard.isSet e.keyboard j = false) ∧
      e.tick = Emulator.tickRun
        { e with registers := e.registers.setR x k0, state := .Running } ∧
      (∀ e1, Emulator.tickRun e1 =
        (Emulator.fetchOpcode
            { e1 with soundTimer := Timer.decrement e1.soundTimer,
                      delayTimer := Timer.decrement e1.delayTimer }).bind
          (Emulator.executeOpcode
            { e1 with soundTimer := Timer.decrement e1.soundTimer,
                      delayTimer := Timer.decrement e1.delayTimer })) := by
  have ht : e.tick =
      match (List.range 16).find? (fun k => KeyBoard.isSet e.keyboard k) with
      | none => .ok e
      | some k =>
        Emulator.tickRun { e with registers := e.registers.setR x k, state := .Running } := by
    unfold Emulator.tick
    rw [hs]
  cases hfind : (List.range 16).find? (fun k => KeyBoard.isSet e.keyboard k) with
  | none =>
    exfalso
    obtain ⟨k, hk16, hkp⟩ := hk
    have hnone := List.find?_eq_none.mp hfind k (List.mem_range.mpr hk16)
    simp only [hkp] at hnone
    exact hnone trivial
  | some k0 =>
    obtain ⟨hp, hlt, hleast⟩ := find?_range_least _ _ _ hfind
    refine ⟨k0, rfl, hp, hlt, hleast, ?_, fun e1 => rfl⟩
    rw [ht, hfind]

/-- Emulator waiting for a key in V4 with keys 3 and 5 pressed. -/
def c10emu : Emulator :=
  { Emulator.mk0 0 with
      state := .WaitingKey 4,
      keyboard := 2 ^ 3 + 2 ^ 5,
      delayTimer := 10 }

/-- C10 witness: the WaitingKey tick theorem at the concrete emulator above. -/
theorem c10_waiting_key_resumes_witness :
    (c10emu.state = .WaitingKey 4 ∧
      ∃ k, k < 16 ∧ KeyBoard.isSet c10emu.keyboard k = true) ∧
    (∃ k0, (List.range 16).find? (fun k => KeyBoard.isSet c10emu.keyboard k) = some k0 ∧
      KeyBoard.isSet c10emu.keyboard k0 = true ∧ k0 < 16 ∧
      (∀ j, j < k0 → KeyBoard.isSet c10emu.keyboard j = false) ∧
      c10emu.tick = Emulator.tickRun
        { c10emu with registers := c10emu.registers.setR 4 k0, state := .Running } ∧
      (∀ e1, Emulator.tickRun e1 =
        (Emulator.fetchOpcode
            { e1 with soundTimer := Timer.decrement e1.soundTimer,
                      delayTimer := Timer.decrement e1.delayTimer }).bind
          (Emulator.executeOpcode
            { e1 with soundTimer := Timer.decrement e1.soundTimer,
                      delayTimer := Timer.decrement e1.delayTimer }))) :=
  ⟨⟨rfl, ⟨3, by decide, by decide⟩⟩,
   c10_waiting_key_resumes c10emu 4 rfl ⟨3, by decide, by decide⟩⟩

/-- Post-state of a successful load_rom for ROM bytes `rom`: canonical font at
[0x000, 0x050), zeros at [0x050, 0x200), the ROM at [0x200, 0x200+|rom|),
zeros at [0x200+|rom|, 0x1000), PC = 0x200, I = 0, all V registers 0, both
timers 0, empty stack, cleared display, state Running. -/
def LoadRomPost (e2 : Emulator) (rom : List Nat) : Prop :=
  (∀ a, a < 0x50 → e2.memory a = FONT_SET.getD a 0) ∧
  (∀ a, 0x50 ≤ a → a < 0x200 → e2.memory a = 0) ∧
  (∀ j, j < rom.length → e2.memory (0x200 + j) = rom.getD j 0) ∧
  (∀ a, 0x200 + rom.length ≤ a → a < 0x1000 → e2.memory a = 0) ∧
  e2.pc = 0x200 ∧ e2.i = 0 ∧ (∀ r, e2.registers r = 0) ∧
  e2.delayTimer = 0 ∧ e2.soundTimer = 0 ∧ e2.stack = [] ∧
  (∀ c r, e2.display.vram c r = false) ∧ e2.display.updated = true ∧
  e2.state = .Running

/-- C7: for every reader that successfully delivers at most 3584 bytes,
Emulator::load_rom succeeds and afterwards the memory holds the 80-byte font,
zeros up to 0x200, the ROM bytes, and zeros to the end; PC = 0x200, I = 0,
V registers and timers zero, empty stack, cleared display, state Running
(also for an empty reader). -/
theorem c7_load_rom (e : Emulator) (rom : List Nat) (hlen : rom.length ≤ 3584) :
    ∃ e2, e.loadRom rom = .ok e2 ∧ LoadRomPost e2 rom := by
  have htake : rom.take (0x1000 - 0x200) = rom := List.take_of_length_le (by omega)
  refine ⟨{ e with
              pc := 0x200, i := Address.new 0, delayTimer := 0, soundTimer := 0,
              registers := fun _ => 0, stack := [], display := e.display.clear,
              memory := fillZero
                (writeBytes
                  (fillZero (writeBytes e.memory 0 FONT_SET) (0 + FONT_SET.length) 0x200)
                  0x200 (rom.take (0x1000 - 0x200)))
                (0x200 + (rom.take (0x1000 - 0x200)).length) 0x1000,
              state := .Running }, ?_, ?_⟩
  · rfl
  · have hfl : FONT_SET.length = 80 := by decide
    refine ⟨fun a ha => ?_, fun a ha1 ha2 => ?_, fun j hj => ?_, fun a ha1 ha2 => ?_,
            rfl, rfl, fun r => rfl, rfl, rfl, rfl, fun c r => rfl, rfl, rfl⟩
    · show fillZero _ _ _ a = _
      unfold fillZero
      rw [htake, if_no (by omega), writeBytes_apply, if_no (by omega)]
      rw [hfl, if_no (by omega), writeBytes_apply, hfl, if_yes (by omega)]
      simp
    · show fillZero _ _ _ a = _
      unfold fillZero
      rw [htake, if_no (by omega), writeBytes_apply, if_no (by omega)]
      rw [hfl, if_yes (by omega)]
    · show fillZero _ _ _ (0x200 + j) = _
      unfold fillZero
      rw [htake, if_no (by omega), writeBytes_apply, if_yes (by omega)]
      simp
    · show fillZero _ _ _ a = _
      unfold fillZero
      rw [htake, if_yes (by omega)]

/-- Emulator with every component dirty, used to check that load_rom resets. -/
def c7dirtyEmu : Emulator :=
  { pc := 7, i := 9, registers := fun _ => 8, soundTimer := 3, delayTimer := 4,
    stack := [1, 2], memory := fun _ => 0xEE,
    display := { vram := fun _ _ => true, updated := false },
    keyboard := 5, rand := 1, state := .New }

/-- C7 witness: load_rom of the two-byte ROM [0xAB, 0xCD] into the dirty
emulator above. -/
theorem c7_load_rom_witness :
    ([0xAB, 0xCD] : List Nat).length ≤ 3584 ∧
    (∃ e2, c7dirtyEmu.loadRom [0xAB, 0xCD] = .ok e2 ∧ LoadRomPost e2 [0xAB, 0xCD]) :=
  ⟨by decide, c7_load_rom c7dirtyEmu [0xAB, 0xCD] (by decide)⟩

/-- Reduction of the u8-wrapped column to the width reduction alone:
64 divides 256, so (x + i) mod 256 mod 64 = (x + i) mod 64. -/
theorem mod256_mod64 (n : Nat) : n % 256 % 64 = n % 64 := by omega

/-- C9: Display::set is a total operation: for every column x in 0..=255 (a
u8), every row y and every sprite byte v, it XOR-writes the 8 sprite bits at
columns (x + i) mod 64, i in 0..8, of the single row y mod 32 — the u8
addition x + i wraps modulo 256, and 64 divides 256, so the written column is
(x + i) mod 64 even when x + i exceeds the 8-bit range — and every other
pixel is unchanged. -/
theorem c9_display_set_wraps (d : Display) (x y v : Nat) (hx : x ≤ 255) :
    (∀ i, i < 8 →
      (d.set x y v).1.vram ((x + i) % 64) (y % 32) =
        ((d.vram ((x + i) % 64) (y % 32)) ^^ (v / 2 ^ (7 - i) % 2 == 1))) ∧
    (∀ c r, (r ≠ y % 32 ∨ ∀ i, i < 8 → c ≠ (x + i) % 64) →
      (d.set x y v).1.vram c r = d.vram c r) := by
  clear hx
  have hrange : List.range 8 = [0, 1, 2, 3, 4, 5, 6, 7] := rfl
  constructor
  · intro i hi
    simp only [Display.set, hrange, List.foldl_cons, List.foldl_nil, blitStep,
               mod256_mod64]
    interval_cases i
    · rw [if_no (by simp only [and_true] <;> omega), if_no (by simp only [and_true] <;> omega),
          if_no (by simp only [and_true] <;> omega), if_no (by simp only [and_true] <;> omega),
          if_no (by simp only [and_true] <;> omega), if_no (by simp only [and_true] <;> omega),
          if_no (by simp only [and_true] <;> omega), if_yes (by simp only [and_true] <;> omega)]
    · rw [if_no (by simp only [and_true] <;> omega), if_no (by simp only [and_true] <;> omega),
          if_no (by simp only [and_true] <;> omega), if_no (by simp only [and_true] <;> omega),
          if_no (by simp only [and_true] <;> omega), if_no (by simp only [and_true] <;> omega),
          if_yes (by simp only [and_true] <;> omega), if_no (by simp only [and_true] <;> omega)]
    · rw [if_no (by simp only [and_true] <;> omega), if_no (by simp only [and_true] <;> omega),
          if_no (by simp only [and_true] <;> omega), if_no (by simp only [and_true] <;> omega),
          if_no (by simp only [and_true] <;> omega), if_yes (by simp only [and_true] <;> omega),
          if_no (by simp only [and_true] <;> omega), if_no (by simp only [and_true] <;> omega)]
    · rw [if_no (by simp only [and_true] <;> omega), if_no (by simp only [and_true] <;> omega),
          if_no (by simp only [and_true] <;> omega), if_no (by simp only [and_true] <;> omega),
          if_yes (by simp only [and_true] <;> omega), if_no (by simp only [and_true] <;> omega),
          if_no (by simp only [and_true] <;> omega), if_no (by simp only [and_true] <;> omega)]
    · rw [if_no (by simp only [and_true] <;> omega), if_no (by simp only [and_true] <;> omega),
          if_no (by simp only [and_true] <;> omega), if_yes (by simp only [and_true] <;> omega),
          if_no (by simp only [and_true] <;> omega), if_no (by simp only [and_true] <;> omega),
          if_no (by simp only [and_true] <;> omega), if_no (by simp only [and_true] <;> omega)]
    · rw [if_no (by simp only [and_true] <;> omega), if_no (by simp only [and_true] <;> omega),
          if_yes (by simp only [and_true] <;> omega), if_no (by simp only [and_true] <;> omega),
          if_no (by simp only [and_true] <;> omega), if_no (by simp only [and_true] <;> omega),
          if_no (by simp only [and_true] <;> omega), if_no (by simp only [and_true] <;> omega)]
    · rw [if_no (by simp only [and_true] <;> omega), if_yes (by simp only [and_true] <;> omega),
          if_no (by simp only [and_true] <;> omega), if_no (by simp only [and_true] <;> omega),
          if_no (by simp only [and_true] <;> omega), if_no (by simp only [and_true] <;> omega),
          if_no (by simp only [and_true] <;> omega), if_no (by simp only [and_true] <;> omega)]
    · rw [if_yes (by simp only [and_true] <;> omega), if_no (by simp only [and_true] <;> omega),
          if_no (by simp only [and_true] <;> omega), if_no (by simp only [and_true] <;> omega),
          if_no (by simp only [and_true] <;> omega), if_no (by simp only [and_true] <;> omega),
          if_no (by simp only [and_true] <;> omega), if_no (by simp only [and_true] <;> omega)]
  · intro c r h
    simp only [Display.set, hrange, List.foldl_cons, List.foldl_nil, blitStep,
               mod256_mod64]
    rcases h with h | h
    · iterate 8 rw [if_neg (fun hc => h hc.2)]
    · rw [if_neg (fun hc => h 7 (by omega) hc.1), if_neg (fun hc => h 6 (by omega) hc.1),
          if_neg (fun hc => h 5 (by omega) hc.1), if_neg (fun hc => h 4 (by omega) hc.1),
          if_neg (fun hc => h 3 (by omega) hc.1), if_neg (fun hc => h 2 (by omega) hc.1),
          if_neg (fun hc => h 1 (by omega) hc.1), if_neg (fun hc => h 0 (by omega) hc.1)]

/-- C9 witness: the wrap theorem at x = 255 (where x + i exceeds the u8 range)
on the cleared display with sprite byte 0xAA. -/
theorem c9_display_set_wraps_witness :
    (255 : Nat) ≤ 255 ∧
    ((∀ i, i < 8 →
        (clearedDisplay.set 255 0 0xAA).1.vram ((255 + i) % 64) (0 % 32) =
          ((clearedDisplay.vram ((255 + i) % 64) (0 % 32)) ^^ (0xAA / 2 ^ (7 - i) % 2 == 1))) ∧
      (∀ c r, (r ≠ 0 % 32 ∨ ∀ i, i < 8 → c ≠ (255 + i) % 64) →
        (clearedDisplay.set 255 0 0xAA).1.vram c r = clearedDisplay.vram c r)) :=
  ⟨by decide, c9_display_set_wraps clearedDisplay 255 0 0xAA (by decide)⟩

/-- Outcome of one line at output time: a pass-1 error is returned as is, a
slice contributes its bytes or an UndefinedLabel error. -/
def lineOutcome (labels : LabelMap) (r : Except AsmError MemorySlices) :
    Except AsmError (List Nat) :=
  match r with
  | .error e => .error e
  | .ok s => s.writeSlice labels

/-- Bytes the streaming writer emits: the concatenation of the byte lists of
the successful outcomes before the first failing one. -/
def emittedPrefix : List (Except AsmError (List Nat)) → List Nat
  | [] => []
  | .error _ :: _ => []
  | .ok bs :: rest => bs ++ emittedPrefix rest

/-- First error among the per-line outcomes, in line order. -/
def firstErr : List (Except AsmError (List Nat)) → Option AsmError
  | [] => none
  | .error e :: _ => some e
  | .ok _ :: rest => firstErr rest

/-- Per-line outcomes of a source text, in source order (the final label table
of pass 1 is used, as in the source). -/
def lineOutcomes (src : List Char) : List (Except AsmError (List Nat)) :=
  ((pass1 (tokenize src) 0x200 []).1).map (lineOutcome (pass1 (tokenize src) 0x200 []).2)

/-- Pass 2 emits exactly the byte prefix before the first failing line and
returns that line's error. -/
theorem pass2_characterization (slices : List (Except AsmError MemorySlices))
    (labels : LabelMap) :
    pass2 slices labels =
      (emittedPrefix (slices.map (lineOutcome labels)),
       firstErr (slices.map (lineOutcome labels))) := by
  induction slices with
  | nil => rfl
  | cons r rest ih =>
    cases r with
    | error e => rfl
    | ok s =>
      cases hw : s.writeSlice labels with
      | error e =>
        simp only [pass2, hw, List.map, lineOutcome, emittedPrefix, firstErr]
      | ok bs =>
        simp only [pass2, hw, List.map, lineOutcome, emittedPrefix, firstErr, ih]

/-- When the first error exists it sits at an index j whose predecessors all
succeeded, and the emitted bytes are exactly those of the lines before j. -/
theorem firstErr_spec (l : List (Except AsmError (List Nat))) (e : AsmError)
    (h : firstErr l = some e) :
    ∃ j, j < l.length ∧ l.getD j (.ok []) = .error e ∧
      (∀ i, i < j → ∃ bs, l.getD i (.ok []) = .ok bs) ∧
      emittedPrefix l = emittedPrefix (l.take j) := by
  induction l with
  | nil => cases h
  | cons r rest ih =>
    cases r with
    | error e2 =>
      have he : e2 = e := by
        have : some e2 = some e := h
        cases this
        rfl
      subst he
      exact ⟨0, by simp, rfl, fun i hi => absurd hi (by omega), by simp [emittedPrefix]⟩
    | ok bs =>
      obtain ⟨j, hjlen, hjerr, hjok, hjpre⟩ := ih h
      refine ⟨j + 1, by simpa using hjlen, by simpa using hjerr, ?_, ?_⟩
      · intro i hi
        cases i with
        | zero => exact ⟨bs, rfl⟩
        | succ i2 => simpa using hjok i2 (by omega)
      · show bs ++ emittedPrefix rest = emittedPrefix (List.take (j + 1) (.ok bs :: rest))
        simp only [List.take, emittedPrefix, hjpre]

/-- C5 counterexample: the two-line source "CLS" / "@" has a tokenizer error
on line 2, and assemble returns that error while the output sink already holds
the two bytes 0x00 0xE0 of line 1 — partial output IS emitted, refuting the
claim's "writes no bytes at all". -/
theorem c5_partial_output_emitted :
    assemble ['C', 'L', 'S', '\n', '@'] =
      ([0x00, 0xE0], some (.invalidToken ['@'] 2)) := by
  decide

/-- C5 (amended): assemble returns the error of the first failing line in
source (processing) order — every earlier line succeeded — but the bytes of
the lines preceding the first failing line have already been written to the
output sink (partial output is emitted); on an error-free source all bytes are
written. -/
theorem c5_first_error_with_partial_output (src : List Char) :
    assemble src = (emittedPrefix (lineOutcomes src), firstErr (lineOutcomes src)) ∧
    (∀ e, firstErr (lineOutcomes src) = some e →
      ∃ j, j < (lineOutcomes src).length ∧
        (lineOutcomes src).getD j (.ok []) = .error e ∧
        (∀ i, i < j → ∃ bs, (lineOutcomes src).getD i (.ok []) = .ok bs) ∧
        emittedPrefix (lineOutcomes src) = emittedPrefix ((lineOutcomes src).take j)) := by
  constructor
  · exact pass2_characterization (pass1 (tokenize src) 0x200 []).1 (pass1 (tokenize src) 0x200 []).2
  · intro e he
    exact firstErr_spec (lineOutcomes src) e he

end R8
